import Mathlib

/-!
Verification of the SOME/IP parsing library (someip-parse).

The embedding models the byte-level codecs over `List Nat`, where every
list element stands for one `u8` byte (so values are `< 256` wherever the
Rust code can only produce bytes).  Machine-integer arithmetic that can
wrap is written with explicit `% 2 ^ w`.  Fallible Rust functions become
`Except`/`Option`-valued Lean functions; functions taking `&mut self`
return the updated state next to the result.  A Rust `panic!`/`unwrap`
path is modelled by `Option` (with `none` for the panic).
-/

set_option maxRecDepth 100000

namespace SomeipParse

/-! ## Constants (src/src/lib.rs) -/

/-- The currently supported protocol version. -/
def SOMEIP_PROTOCOL_VERSION : Nat := 1

/-- Offset that must be subtracted from the length field to determine the
length of the actual payload (`4*2`). -/
def SOMEIP_LEN_OFFSET_TO_PAYLOAD : Nat := 4 * 2

/-- Length of a SOME/IP header (`4*4`). -/
def SOMEIP_HEADER_LENGTH : Nat := 4 * 4

/-- Length of a TP header. -/
def TP_HEADER_LENGTH : Nat := 4

/-- Flag in the message type field marking the message as a TP message. -/
def SOMEIP_HEADER_MESSAGE_TYPE_TP_FLAG : Nat := 0x20

/-! ## Byte helpers

`u32_be_bytes v` is `u32::to_be_bytes` and `be32` is `u32::from_be_bytes`;
`get_be_u32 l i` is `get_unchecked_be_u32` at byte offset `i` of `l`. -/

def u32_be_bytes (v : Nat) : List Nat :=
  [v / 2 ^ 24 % 256, v / 2 ^ 16 % 256, v / 2 ^ 8 % 256, v % 256]

def be32 (b0 b1 b2 b3 : Nat) : Nat :=
  b0 * 2 ^ 24 + b1 * 2 ^ 16 + b2 * 2 ^ 8 + b3

def get_be_u32 (l : List Nat) (i : Nat) : Nat :=
  be32 (l.getD i 0) (l.getD (i + 1) 0) (l.getD (i + 2) 0) (l.getD (i + 3) 0)

/-! ## Error types (src/src/err.rs and src/src/err/) -/

/-- `err::ReadError` (payload-free `IoError`/`AllocationError`: the model
cannot run out of bytes mid-read other than by reaching the end of the
input list, and never fails to allocate). -/
inductive ReadError
  | IoError
  | UnexpectedEndOfSlice (len : Nat)
  | UnsupportedProtocolVersion (version : Nat)
  | LengthFieldTooSmall (len : Nat)
  | UnknownMessageType (t : Nat)
  | UnknownSdEventGroupEntryType (t : Nat)
  | UnknownSdServiceEntryType (t : Nat)
  | UnknownSdOptionType (t : Nat)
  | SdEntriesArrayLengthTooLarge (len : Nat)
  | SdOptionsArrayLengthTooLarge (len : Nat)
  | SdOptionLengthZero
  | SdOptionUnexpectedLen (expected_len : Nat) (actual_len : Nat) (option_type : Nat)
  deriving DecidableEq, Repr

/-- `err::ValueError`. -/
inductive ValueError
  | LengthTooLarge (v : Nat)
  | TpOffsetNotMultipleOf16 (v : Nat)
  | CounterTooLarge (v : Nat)
  | TtlTooLarge (v : Nat)
  | TtlZeroIndicatesStopOffering
  | NumberOfOption1TooLarge (v : Nat)
  | NumberOfOption2TooLarge (v : Nat)
  | SdUnknownDiscardableOption (t : Nat)
  deriving DecidableEq, Repr

/-- `err::TpReassembleError`. -/
inductive TpReassembleError
  | UnalignedTpPayloadLen (offset : Nat) (payload_len : Nat)
  | SegmentTooBig (offset : Nat) (payload_len : Nat) (max : Nat)
  | ConflictingEnd (previous_end : Nat) (conflicting_end : Nat)
  | AllocationFailure (len : Nat)
  deriving DecidableEq, Repr

/-- `err::SomeipHeaderError`. -/
inductive SomeipHeaderError
  | UnsupportedProtocolVersion (version : Nat)
  | LengthFieldTooSmall (len : Nat)
  | UnknownMessageType (t : Nat)
  deriving DecidableEq, Repr

/-- `err::SomeipHeaderReadError` (the `Io` payload is dropped). -/
inductive SomeipHeaderReadError
  | Io
  | Content (e : SomeipHeaderError)
  deriving DecidableEq, Repr

/-! ## MessageType (src/src/message_type.rs) -/

inductive MessageType
  | Request
  | RequestNoReturn
  | Notification
  | Response
  | Error
  deriving DecidableEq, Repr

/-- The numeric discriminant of a message type (`MessageType as u8`). -/
def MessageType.toNat : MessageType → Nat
  | .Request => 0x0
  | .RequestNoReturn => 0x1
  | .Notification => 0x2
  | .Response => 0x80
  | .Error => 0x81

/-- The `match` every reader uses on the message type value with the TP
flag masked out: `0x0 | 0x1 | 0x2 | 0x80 | 0x81` decode, anything else is
unknown (`none`). -/
def message_type_of_raw : Nat → Option MessageType
  | 0x0 => some .Request
  | 0x1 => some .RequestNoReturn
  | 0x2 => some .Notification
  | 0x80 => some .Response
  | 0x81 => some .Error
  | _ => none

/-! ## TpHeader (src/src/tp_header.rs) -/

structure TpHeader where
  offset : Nat
  more_segment : Bool
  deriving DecidableEq, Repr

instance : Inhabited TpHeader := ⟨⟨0, false⟩⟩

def TpHeader.new (more_segment : Bool) : TpHeader :=
  { offset := 0, more_segment }

def TpHeader.with_offset (offset : Nat) (more_segment : Bool) :
    Except ValueError TpHeader :=
  if 0 ≠ offset % 16 then .error (.TpOffsetNotMultipleOf16 offset)
  else .ok { offset, more_segment }

/-- `set_offset` takes `&mut self`; the returned pair is (result, state
after the call). -/
def TpHeader.set_offset (h : TpHeader) (value : Nat) :
    Option ValueError × TpHeader :=
  if 0 ≠ value % 16 then (some (.TpOffsetNotMultipleOf16 value), h)
  else (none, { h with offset := value })

/-- `to_bytes`: `offset.to_be_bytes()` with bit 0 of the last byte set
when `more_segment` holds. -/
def TpHeader.to_bytes (h : TpHeader) : List Nat :=
  [h.offset / 2 ^ 24 % 256, h.offset / 2 ^ 16 % 256, h.offset / 2 ^ 8 % 256,
   if h.more_segment then h.offset % 256 ||| 0x1 else h.offset % 256]

/-- `TpHeader::read` from a byte stream; `none` is an io error (stream too
short).  The flags in the last byte are masked out of the offset
(`buffer[3] &= !0b1111`, i.e. `&&& 0xF0` on a byte). -/
def TpHeader.read (bytes : List Nat) : Option (TpHeader × List Nat) :=
  match bytes with
  | b0 :: b1 :: b2 :: b3 :: rest =>
    some ({ offset := be32 b0 b1 b2 (b3 &&& 0xF0),
            more_segment := b3 &&& 0b0001 != 0 }, rest)
  | _ => none

/-- `TpHeader::from_slice_unchecked` (caller guarantees 4 bytes). -/
def TpHeader.from_slice_unchecked (slice : List Nat) : TpHeader :=
  { offset := be32 (slice.getD 0 0) (slice.getD 1 0) (slice.getD 2 0)
      (slice.getD 3 0 &&& 0xF0),
    more_segment := slice.getD 3 0 &&& 0b0001 != 0 }

/-! ## SomeipHeader (src/src/someip_header.rs) -/

structure SomeipHeader where
  message_id : Nat
  length : Nat
  request_id : Nat
  interface_version : Nat
  message_type : MessageType
  return_code : Nat
  tp_header : Option TpHeader
  deriving DecidableEq, Repr

/-- `base_to_bytes`: the 16 fixed header bytes; the TP flag is ORed into
the message type byte exactly when a TP header is present. -/
def SomeipHeader.base_to_bytes (h : SomeipHeader) : List Nat :=
  u32_be_bytes h.message_id ++ u32_be_bytes h.length ++ u32_be_bytes h.request_id ++
  [SOMEIP_PROTOCOL_VERSION, h.interface_version,
   match h.tp_header with
   | some _ => h.message_type.toNat ||| SOMEIP_HEADER_MESSAGE_TYPE_TP_FLAG
   | none => h.message_type.toNat,
   h.return_code]

/-- `write_raw`: base bytes followed by the TP header bytes when present. -/
def SomeipHeader.write_raw (h : SomeipHeader) : List Nat :=
  h.base_to_bytes ++
  (match h.tp_header with
   | some tp => tp.to_bytes
   | none => [])

/-- `SomeipHeader::read` from a byte stream, returning the header and the
rest of the stream. -/
def SomeipHeader.read (bytes : List Nat) :
    Except SomeipHeaderReadError (SomeipHeader × List Nat) :=
  if bytes.length < SOMEIP_HEADER_LENGTH then .error .Io
  else
    let header_bytes := bytes.take SOMEIP_HEADER_LENGTH
    let rest := bytes.drop SOMEIP_HEADER_LENGTH
    let length := be32 (header_bytes.getD 4 0) (header_bytes.getD 5 0)
      (header_bytes.getD 6 0) (header_bytes.getD 7 0)
    if length < SOMEIP_LEN_OFFSET_TO_PAYLOAD then
      .error (.Content (.LengthFieldTooSmall length))
    else
      let protocol_version := header_bytes.getD 12 0
      if protocol_version ≠ SOMEIP_PROTOCOL_VERSION then
        .error (.Content (.UnsupportedProtocolVersion protocol_version))
      else
        let message_type_raw := header_bytes.getD 14 0
        -- `message_type_raw & !(SOMEIP_HEADER_MESSAGE_TYPE_TP_FLAG)` on a byte
        match message_type_of_raw (message_type_raw &&& 0xDF) with
        | none => .error (.Content (.UnknownMessageType message_type_raw))
        | some message_type =>
          let mkHeader := fun (tp_header : Option TpHeader) =>
            { message_id := be32 (header_bytes.getD 0 0) (header_bytes.getD 1 0)
                (header_bytes.getD 2 0) (header_bytes.getD 3 0)
              length
              request_id := be32 (header_bytes.getD 8 0) (header_bytes.getD 9 0)
                (header_bytes.getD 10 0) (header_bytes.getD 11 0)
              interface_version := header_bytes.getD 13 0
              message_type
              return_code := header_bytes.getD 15 0
              tp_header : SomeipHeader }
          if message_type_raw &&& SOMEIP_HEADER_MESSAGE_TYPE_TP_FLAG ≠ 0 then
            match TpHeader.read rest with
            | none => .error .Io
            | some (tp, rest2) => .ok (mkHeader (some tp), rest2)
          else
            .ok (mkHeader none, rest)

/-! ## SomeipMsgSlice (src/src/someip_msg_slice.rs) -/

structure SomeipMsgSlice where
  tp : Bool
  slice : List Nat
  deriving DecidableEq, Repr

/-- `SomeipMsgSlice::from_slice` (64 bit target version; `usize`
arithmetic cannot overflow there, so `len + 8` is plain `Nat` addition). -/
def SomeipMsgSlice.from_slice (slice : List Nat) :
    Except ReadError SomeipMsgSlice :=
  if slice.length < SOMEIP_HEADER_LENGTH then
    .error (.UnexpectedEndOfSlice slice.length)
  else
    let len := get_be_u32 slice 4
    if len < SOMEIP_LEN_OFFSET_TO_PAYLOAD then .error (.LengthFieldTooSmall len)
    else
      let total_length := len + 4 * 2
      if slice.length < total_length then .error (.UnexpectedEndOfSlice slice.length)
      else
        let protocol_version := slice.getD (4 * 3) 0
        if SOMEIP_PROTOCOL_VERSION ≠ protocol_version then
          .error (.UnsupportedProtocolVersion protocol_version)
        else
          let message_type := slice.getD (4 * 3 + 2) 0
          let tp : Bool := message_type &&& SOMEIP_HEADER_MESSAGE_TYPE_TP_FLAG != 0
          if tp ∧ len < SOMEIP_LEN_OFFSET_TO_PAYLOAD + 4 then
            .error (.LengthFieldTooSmall len)
          else
            -- `message_type & !(SOMEIP_HEADER_MESSAGE_TYPE_TP_FLAG)` on a byte
            match message_type_of_raw (message_type &&& 0xDF) with
            | none => .error (.UnknownMessageType message_type)
            | some _ => .ok { tp, slice := slice.take total_length }

def SomeipMsgSlice.message_id (s : SomeipMsgSlice) : Nat := get_be_u32 s.slice 0

def SomeipMsgSlice.length (s : SomeipMsgSlice) : Nat := get_be_u32 s.slice 4

def SomeipMsgSlice.request_id (s : SomeipMsgSlice) : Nat := get_be_u32 s.slice 8

def SomeipMsgSlice.protocol_version (s : SomeipMsgSlice) : Nat := s.slice.getD 12 0

def SomeipMsgSlice.interface_version (s : SomeipMsgSlice) : Nat := s.slice.getD 13 0

/-- `message_type_raw` (still contains the TP flag). -/
def SomeipMsgSlice.message_type_raw (s : SomeipMsgSlice) : Nat := s.slice.getD 14 0

/-- `message_type`: decode with the TP flag masked out; the `none` case is
the source's `panic!` branch for an unknown message type. -/
def SomeipMsgSlice.message_type (s : SomeipMsgSlice) : Option MessageType :=
  message_type_of_raw (s.message_type_raw &&& 0xDF)

def SomeipMsgSlice.is_tp (s : SomeipMsgSlice) : Bool := s.tp

def SomeipMsgSlice.return_code (s : SomeipMsgSlice) : Nat := s.slice.getD 15 0

/-- `payload`: the bytes after the SOME/IP header (and after the TP header
when the TP flag is set). -/
def SomeipMsgSlice.payload (s : SomeipMsgSlice) : List Nat :=
  if s.tp then s.slice.drop (SOMEIP_HEADER_LENGTH + TP_HEADER_LENGTH)
  else s.slice.drop SOMEIP_HEADER_LENGTH

/-- `tp_header`: decoded from the 4 bytes after the SOME/IP header when
the TP flag is set. -/
def SomeipMsgSlice.tp_header (s : SomeipMsgSlice) : Option TpHeader :=
  if s.tp then some (TpHeader.from_slice_unchecked (s.slice.drop SOMEIP_HEADER_LENGTH))
  else none

/-- `to_header`; `none` is the `panic!` branch inside `message_type`. -/
def SomeipMsgSlice.to_header (s : SomeipMsgSlice) : Option SomeipHeader :=
  s.message_type.map fun message_type =>
    { message_id := s.message_id
      length := s.length
      request_id := s.request_id
      interface_version := s.interface_version
      message_type
      return_code := s.return_code
      tp_header := s.tp_header }

/-! ## TpRange (src/src/tp_range.rs) -/

/-- Range of received data in a TP stream.  The source's second field is
named `end` (a Lean keyword), modelled here as `stop`. -/
structure TpRange where
  start : Nat
  stop : Nat
  deriving DecidableEq, Repr

instance : Inhabited TpRange := ⟨⟨0, 0⟩⟩

/-- Return if the value is contained within the section. -/
def TpRange.is_value_connected (r : TpRange) (value : Nat) : Bool :=
  decide (r.start ≤ value) && decide (r.stop ≥ value)

/-- Combine both sections if possible. -/
def TpRange.merge (r : TpRange) (other : TpRange) : Option TpRange :=
  if r.is_value_connected other.start || r.is_value_connected other.stop ||
      other.is_value_connected r.start || other.is_value_connected r.stop then
    some { start := min r.start other.start, stop := max r.stop other.stop }
  else
    none

/-! ## TpBufConfig (src/src/tp_buf_config.rs) -/

/-- `err::TpBufConfigError`. -/
inductive TpBufConfigError
  | MaxPayloadLenTooBig (allowed_max : Nat) (actual : Nat)
  deriving DecidableEq, Repr

structure TpBufConfig where
  tp_buffer_start_payload_alloc_len : Nat
  tp_max_payload_len : Nat
  deriving DecidableEq, Repr

/-- `u32::MAX - SOMEIP_HEADER_LENGTH`. -/
def TpBufConfig.MAX_TP_PAYLOAD_LEN : Nat := 2 ^ 32 - 1 - SOMEIP_HEADER_LENGTH

def TpBufConfig.new (tp_buffer_start_payload_alloc_len : Nat)
    (tp_max_payload_len : Nat) : Except TpBufConfigError TpBufConfig :=
  if tp_max_payload_len > TpBufConfig.MAX_TP_PAYLOAD_LEN then
    .error (.MaxPayloadLenTooBig TpBufConfig.MAX_TP_PAYLOAD_LEN tp_max_payload_len)
  else
    .ok { tp_buffer_start_payload_alloc_len, tp_max_payload_len }

/-! ## TpBuf (src/src/tp_buf.rs) -/

/-- Buffer to reconstruct one SOME/IP TP packet stream.  The source's
`end` field (a Lean keyword) is modelled as `endVal`.  The `data` vector's
spare capacity is not modelled (only its contents are observable). -/
structure TpBuf where
  data : List Nat
  sections : List TpRange
  endVal : Option Nat
  config : TpBufConfig
  deriving DecidableEq, Repr

def TpBuf.new (config : TpBufConfig) : TpBuf :=
  { data := [], sections := [], endVal := none, config }

/-- Reset buffer to starting state. -/
def TpBuf.clear (b : TpBuf) : TpBuf :=
  { b with data := [], sections := [], endVal := none }

/-- `l[pos .. pos + src.len] = src` — the model of
`slice[pos..pos+src.len()].clone_from_slice(src)` (the source guarantees
the written range lies inside the slice). -/
def listWrite (l : List Nat) (pos : Nat) (src : List Nat) : List Nat :=
  l.take pos ++ src ++ l.drop (pos + src.length)

/-- The `sections.retain(..)` loop of `consume_tp`: fold the new section
over the stored sections, merging every connected one into it (removing
it), and keep the rest in order.  Returns the fully merged new section
and the kept sections. -/
def mergeInto (new_section : TpRange) : List TpRange → TpRange × List TpRange
  | [] => (new_section, [])
  | s :: rest =>
    match new_section.merge s with
    | some merged => mergeInto merged rest
    | none =>
      let (ns, kept) := mergeInto new_section rest
      (ns, s :: kept)

/-- `tp_header().unwrap()` under `consume_tp`'s `assert!(is_tp())`. -/
def SomeipMsgSlice.tp_header_unwrap (s : SomeipMsgSlice) : TpHeader :=
  s.tp_header.getD default

/-- The mutation tail of `TpBuf::consume_tp`, reached once every
validation has passed: grow the data vector, at offset 0 copy the header
and clear the TP flag, insert the payload, merge the new section and
record the final end when `more_segment` is unset. -/
def TpBuf.consume_tp_write (buf : TpBuf) (someip_slice : SomeipMsgSlice) :
    Option TpReassembleError × TpBuf :=
  let tp_header := someip_slice.tp_header_unwrap
  let payload := someip_slice.payload
  -- get enough memory to store a SOME/IP header + TP reassembled payload
  let required_len := SOMEIP_HEADER_LENGTH + tp_header.offset + payload.length
  let data0 :=
    if buf.data.length < required_len then
      buf.data ++ List.replicate (required_len - buf.data.length) 0
    else buf.data
  -- at offset 0: copy the header and remove the TP flag (`&= 0b1101_1111`)
  let data1 :=
    if tp_header.offset = 0 then
      let copied := listWrite data0 0 (someip_slice.slice.take SOMEIP_HEADER_LENGTH)
      listWrite copied (4 * 3 + 2) [copied.getD (4 * 3 + 2) 0 &&& 0xDF]
    else data0
  -- insert new data
  let data2 := listWrite data1 (SOMEIP_HEADER_LENGTH + tp_header.offset) payload
  -- update sections
  let merged := mergeInto
    { start := tp_header.offset, stop := tp_header.offset + payload.length }
    buf.sections
  -- set end
  let endVal :=
    if tp_header.more_segment = false then
      some (tp_header.offset + payload.length)
    else buf.endVal
  (none, { buf with data := data2, sections := merged.2 ++ [merged.1], endVal })

/-- `TpBuf::consume_tp` (`&mut self`, so the result carries the updated
buffer).  `try_reserve` is modelled as always succeeding: in the source
the `AllocationFailure` return happens before any mutation, like every
other error return. -/
def TpBuf.consume_tp (buf : TpBuf) (someip_slice : SomeipMsgSlice) :
    Option TpReassembleError × TpBuf :=
  let tp_header := someip_slice.tp_header_unwrap
  let payload := someip_slice.payload
  if buf.config.tp_max_payload_len < tp_header.offset ∨
      buf.config.tp_max_payload_len - tp_header.offset < payload.length then
    (some (.SegmentTooBig tp_header.offset payload.length
      buf.config.tp_max_payload_len), buf)
  else if tp_header.more_segment ∧ 0 ≠ payload.length &&& 0b1111 then
    (some (.UnalignedTpPayloadLen tp_header.offset payload.length), buf)
  else
    -- check the section is not already ended
    match buf.endVal with
    | some previous_end =>
      let endPos := tp_header.offset + payload.length
      if previous_end < endPos ∨
          (tp_header.more_segment = false ∧ endPos ≠ previous_end) then
        (some (.ConflictingEnd previous_end endPos), buf)
      else buf.consume_tp_write someip_slice
    | none => buf.consume_tp_write someip_slice

def TpBuf.is_complete (buf : TpBuf) : Bool :=
  buf.endVal.isSome && buf.sections.length == 1 &&
    (buf.sections.getD 0 default).start == 0

/-- `TpBuf::try_finalize` (`&mut self`): reinject the length into the
header and return the updated buffer together with the reassembled
non-TP view.  The source `unwrap`s the final `from_slice`; that panic is
modelled as `none`. -/
def TpBuf.try_finalize (buf : TpBuf) : Option (TpBuf × SomeipMsgSlice) :=
  if buf.is_complete = false then none
  else
    let sec := buf.sections.getD 0 default
    let data := listWrite buf.data 4 (u32_be_bytes (sec.stop + 8))
    match SomeipMsgSlice.from_slice data with
    | .ok v => some ({ buf with data }, v)
    | .error _ => none

/-! ## TpPool (src/src/tp_pool.rs) -/

/-- Pool of buffers reconstructing multiple TP streams in parallel.  The
`HashMap` is modelled as an association list whose keys are unique
(`lookupEntry` finds the first match, `updateEntry` replaces in place,
`removeEntry` filters the key out). -/
structure TpPool (ChannelId Timestamp : Type) where
  active : List ((ChannelId × Nat) × (TpBuf × Timestamp))
  finished : List TpBuf
  buf_config : TpBufConfig

def TpPool.new {C T : Type} (buf_config : TpBufConfig) : TpPool C T :=
  { active := [], finished := [], buf_config }

def lookupEntry {C T : Type} [DecidableEq C]
    (active : List ((C × Nat) × (TpBuf × T))) (key : C × Nat) : Option (TpBuf × T) :=
  match active with
  | [] => none
  | (k, v) :: rest => if k = key then some v else lookupEntry rest key

def updateEntry {C T : Type} [DecidableEq C]
    (active : List ((C × Nat) × (TpBuf × T))) (key : C × Nat) (v : TpBuf × T) :
    List ((C × Nat) × (TpBuf × T)) :=
  active.map fun e => if e.1 = key then (key, v) else e

def removeEntry {C T : Type} [DecidableEq C]
    (active : List ((C × Nat) × (TpBuf × T))) (key : C × Nat) :
    List ((C × Nat) × (TpBuf × T)) :=
  active.filter fun e => decide (e.1 ≠ key)

/-- The Vacant arm's buffer acquisition: pop a buffer from the back of
the free list and clear it, or create a new one from the pool's config.
Returns the buffer to use and the remaining free list. -/
def TpPool.popBuf {C T : Type} (pool : TpPool C T) : TpBuf × List TpBuf :=
  match pool.finished.getLast? with
  | some b => (b.clear, pool.finished.dropLast)
  | none => (TpBuf.new pool.buf_config, pool.finished)

/-- `TpPool::consume` (`&mut self`): the result pairs the returned value
with the pool state after the call.  The outer `none` models the two
`unwrap` panics on `try_finalize` (unreachable for buffers filled through
this function). -/
def TpPool.consume {C T : Type} [DecidableEq C] (pool : TpPool C T) (id : C)
    (timestamp : T) (someip_slice : SomeipMsgSlice) :
    Option (Except TpReassembleError (Option SomeipMsgSlice) × TpPool C T) :=
  if someip_slice.is_tp then
    let key := (id, someip_slice.request_id)
    match lookupEntry pool.active key with
    | some (buf, ts0) =>
      -- stream already known: consume the data & update the timestamp
      match buf.consume_tp someip_slice with
      | (some e, buf') =>
        -- `?` propagates before the timestamp update
        some (.error e, { pool with active := updateEntry pool.active key (buf', ts0) })
      | (none, buf') =>
        if buf'.is_complete then
          -- move the buffer to the finished list and return the result
          match buf'.try_finalize with
          | some (bf, v) =>
            some (.ok (some v),
              { pool with active := removeEntry pool.active key,
                          finished := pool.finished ++ [bf] })
          | none => none
        else
          some (.ok none,
            { pool with active := updateEntry pool.active key (buf', timestamp) })
    | none =>
      -- new stream: get a finished or new buffer
      let popped := pool.popBuf
      match popped.1.consume_tp someip_slice with
      | (some e, _) =>
        -- the popped buffer is dropped by the `?` return
        some (.error e, { pool with finished := popped.2 })
      | (none, buf') =>
        if buf'.is_complete then
          match buf'.try_finalize with
          | some (bf, v) =>
            some (.ok (some v), { pool with finished := popped.2 ++ [bf] })
          | none => none
        else
          -- stream not yet done, keep it around
          some (.ok none,
            { pool with active := pool.active ++ [(key, (buf', timestamp))],
                        finished := popped.2 })
  else
    some (.ok (some someip_slice), pool)

/-! ## Model of a TP segment stream (for the reassembly claims)

A segment is described by its offset and payload length into a master
payload `P`; the bytes fed to the buffer are exactly what the library
itself writes for such a segment (`write_raw` of the segment's header
followed by the corresponding window of `P`), so overlapping segments are
byte-identical by construction. -/

structure Seg where
  off : Nat
  len : Nat
  deriving DecidableEq, Repr

/-- The wire view of one TP segment of the master payload `P`. -/
def mkTpSegment (mid rid iv rc : Nat) (mt : MessageType) (P : List Nat)
    (s : Seg) (more : Bool) : SomeipMsgSlice :=
  { tp := true,
    slice := SomeipHeader.write_raw
        { message_id := mid, length := SOMEIP_LEN_OFFSET_TO_PAYLOAD + TP_HEADER_LENGTH + s.len,
          request_id := rid, interface_version := iv, message_type := mt,
          return_code := rc, tp_header := some ⟨s.off, more⟩ } ++
      (P.drop s.off).take s.len }

/-- Feed a list of segment views to a buffer, stopping at the first
error. -/
def consumeAll (buf : TpBuf) : List SomeipMsgSlice → Option TpReassembleError × TpBuf
  | [] => (none, buf)
  | m :: rest =>
    match buf.consume_tp m with
    | (some e, b) => (some e, b)
    | (none, b) => consumeAll b rest

/-- Largest `off + len` over a list of consumed segments. -/
def maxEnd (consumed : List Seg) : Nat :=
  consumed.foldr (fun s acc => max (s.off + s.len) acc) 0

/-- Closed spans intersect — exactly when `TpRange::merge` succeeds on
well-formed ranges. -/
def rangesConnected (a b : TpRange) : Prop :=
  a.start ≤ b.stop ∧ b.start ≤ a.stop

/-- Invariant of a `TpBuf` that has consumed the segments `consumed`, all
windows of the master payload `P` under base header fields
`mid/rid/iv/rc/mt` (everything except the `end` field, which differs
between intermediate and final segments). -/
def TpInvCore (mid rid iv rc : Nat) (mt : MessageType) (P : List Nat)
    (config : TpBufConfig) (consumed : List Seg) (buf : TpBuf) : Prop :=
  buf.config = config ∧
  (consumed = [] → buf.data = []) ∧
  (consumed ≠ [] → buf.data.length = SOMEIP_HEADER_LENGTH + maxEnd consumed) ∧
  ((∃ s ∈ consumed, s.off = 0) → ∃ L, buf.data.take SOMEIP_HEADER_LENGTH =
    SomeipHeader.base_to_bytes
      { message_id := mid, length := L, request_id := rid, interface_version := iv,
        message_type := mt, return_code := rc, tp_header := none }) ∧
  (∀ s ∈ consumed, ∀ j < s.len,
    buf.data.getD (SOMEIP_HEADER_LENGTH + s.off + j) 0 = P.getD (s.off + j) 0) ∧
  (∀ r ∈ buf.sections, r.start < r.stop) ∧
  buf.sections.Pairwise (fun a b => ¬rangesConnected a b) ∧
  (∀ p, (∃ r ∈ buf.sections, r.start ≤ p ∧ p < r.stop) ↔
    (∃ s ∈ consumed, s.off ≤ p ∧ p < s.off + s.len))

/-- Invariant of a `TpBuf` that has consumed only non-final segments: the
core invariant plus an unset `end`. -/
def TpInv (mid rid iv rc : Nat) (mt : MessageType) (P : List Nat)
    (config : TpBufConfig) (consumed : List Seg) (buf : TpBuf) : Prop :=
  buf.endVal = none ∧ TpInvCore mid rid iv rc mt P config consumed buf

/-! ## SomeipMsgsIterator (src/src/someip_msgs_iterator.rs) -/

structure SomeipMsgsIterator where
  slice : List Nat
  deriving DecidableEq, Repr

/-- One `next()` step: the yielded item (`none` = iteration over) together
with the iterator state after the call.  On a parse error the remaining
slice is moved to a `len = 0` position so that the iterator ends. -/
def SomeipMsgsIterator.next (it : SomeipMsgsIterator) :
    Option (Except ReadError SomeipMsgSlice) × SomeipMsgsIterator :=
  if it.slice.isEmpty then (none, it)
  else
    match SomeipMsgSlice.from_slice it.slice with
    | .error e => (some (.error e), ⟨it.slice.drop it.slice.length⟩)
    | .ok value => (some (.ok value), ⟨it.slice.drop value.slice.length⟩)

/-- The item yielded by the `n`-th further call to `next` (0 = the very
next call) starting from iterator state `it`. -/
def SomeipMsgsIterator.runNext (it : SomeipMsgsIterator) : Nat → Option (Except ReadError SomeipMsgSlice)
  | 0 => it.next.1
  | n + 1 => SomeipMsgsIterator.runNext it.next.2 n

/-! ## SOME/IP service discovery (src/src/sd.rs)

Byte streams (`std::io::Read + Seek`) are modelled as `List Nat`; a read
past the end of the list is the io error (payload-free `.IoError`). -/

/-- Modelled from the spec: the crate-root constant
`SOMEIP_MAX_PAYLOAD_LEN_UDP` is not part of this repository's sources;
the spec states that with UDP the SOME/IP payload shall be between 0 and
1400 bytes. -/
def SOMEIP_MAX_PAYLOAD_LEN_UDP : Nat := 1400

/-- `sd::entries::MAX_ENTRIES_LEN`. -/
def MAX_ENTRIES_LEN : Nat := SOMEIP_MAX_PAYLOAD_LEN_UDP - 4 - 4 - 4

/-- `sd::options::MAX_OPTIONS_LEN`. -/
def MAX_OPTIONS_LEN : Nat := SOMEIP_MAX_PAYLOAD_LEN_UDP - 4 - 4 - 4

/-- `sd::entries::ENTRY_LEN`. -/
def ENTRY_LEN : Nat := 16

def EVENT_ENTRY_INITIAL_DATA_REQUESTED_FLAG : Nat := 0x80

/-- `sd::flags` constants. -/
def REBOOT_FLAG : Nat := 0x80

def UNICAST_FLAG : Nat := 0x40

def EXPLICIT_INITIAL_DATA_CONTROL_FLAG : Nat := 0x20

/-- `sd::options` constants. -/
def DISCARDABLE_FLAG : Nat := 0x80

def CONFIGURATION_TYPE : Nat := 0x01

def LOAD_BALANCING_LEN : Nat := 0x0005

def LOAD_BALANCING_TYPE : Nat := 0x02

def IPV4_ENDPOINT_LEN : Nat := 0x0009

def IPV4_ENDPOINT_TYPE : Nat := 0x04

def IPV6_ENDPOINT_LEN : Nat := 0x0015

def IPV6_ENDPOINT_TYPE : Nat := 0x06

def IPV4_MULTICAST_LEN : Nat := 0x0009

def IPV4_MULTICAST_TYPE : Nat := 0x14

def IPV6_MULTICAST_LEN : Nat := 0x0015

def IPV6_MULTICAST_TYPE : Nat := 0x16

def IPV4_SD_ENDPOINT_LEN : Nat := 0x009

def IPV4_SD_ENDPOINT_TYPE : Nat := 0x24

def IPV6_SD_ENDPOINT_LEN : Nat := 0x0015

def IPV6_SD_ENDPOINT_TYPE : Nat := 0x26

/-- `u16::to_be_bytes` / `u16::from_be_bytes`. -/
def u16_be_bytes (v : Nat) : List Nat := [v / 2 ^ 8 % 256, v % 256]

def be16 (b0 b1 : Nat) : Nat := b0 * 2 ^ 8 + b1

inductive SdServiceEntryType
  | FindService
  | OfferService
  deriving DecidableEq, Repr

/-- The `as u8` values of `SdServiceEntryType`. -/
def SdServiceEntryType.toNat : SdServiceEntryType → Nat
  | .FindService => 0x00
  | .OfferService => 0x01

inductive SdEventGroupEntryType
  | Subscribe
  | SubscribeAck
  deriving DecidableEq, Repr

/-- The `as u8` values of `SdEventGroupEntryType`. -/
def SdEventGroupEntryType.toNat : SdEventGroupEntryType → Nat
  | .Subscribe => 0x06
  | .SubscribeAck => 0x07

/-- Protocol numbers based on IANA/IETF. -/
inductive TransportProtocol
  | Tcp
  | Udp
  | Generic (v : Nat)
  deriving DecidableEq, Repr

/-- `impl From<TransportProtocol> for u8`. -/
def TransportProtocol.toNat : TransportProtocol → Nat
  | .Tcp => 0x06
  | .Udp => 0x11
  | .Generic v => v

/-- The decoding match used by `read_ip4_option`/`read_ip6_option`. -/
def transport_protocol_of_raw (v : Nat) : TransportProtocol :=
  if v = 0x06 then .Tcp
  else if v = 0x11 then .Udp
  else .Generic v

structure ConfigurationOption where
  discardable : Bool
  configuration_string : List Nat
  deriving DecidableEq, Repr

structure LoadBalancingOption where
  discardable : Bool
  priority : Nat
  weight : Nat
  deriving DecidableEq, Repr

structure Ipv4EndpointOption where
  ipv4_address : List Nat
  transport_protocol : TransportProtocol
  transport_protocol_number : Nat
  deriving DecidableEq, Repr

structure Ipv6EndpointOption where
  ipv6_address : List Nat
  transport_protocol : TransportProtocol
  transport_protocol_number : Nat
  deriving DecidableEq, Repr

structure Ipv4MulticastOption where
  ipv4_address : List Nat
  transport_protocol : TransportProtocol
  transport_protocol_number : Nat
  deriving DecidableEq, Repr

structure Ipv6MulticastOption where
  ipv6_address : List Nat
  transport_protocol : TransportProtocol
  transport_protocol_number : Nat
  deriving DecidableEq, Repr

structure Ipv4SdEndpointOption where
  ipv4_address : List Nat
  transport_protocol : TransportProtocol
  transport_protocol_number : Nat
  deriving DecidableEq, Repr

structure Ipv6SdEndpointOption where
  ipv6_address : List Nat
  transport_protocol : TransportProtocol
  transport_protocol_number : Nat
  deriving DecidableEq, Repr

structure UnknownDiscardableOption where
  length : Nat
  option_type : Nat
  deriving DecidableEq, Repr

inductive SdEntry
  | Service (_type : SdServiceEntryType) (index_first_option_run : Nat)
      (index_second_option_run : Nat) (number_of_options_1 : Nat)
      (number_of_options_2 : Nat) (service_id : Nat) (instance_id : Nat)
      (major_version : Nat) (ttl : Nat) (minor_version : Nat)
  | Eventgroup (_type : SdEventGroupEntryType) (index_first_option_run : Nat)
      (index_second_option_run : Nat) (number_of_options_1 : Nat)
      (number_of_options_2 : Nat) (service_id : Nat) (instance_id : Nat)
      (major_version : Nat) (ttl : Nat) (initial_data_requested : Bool)
      (counter : Nat) (eventgroup_id : Nat)
  deriving DecidableEq, Repr

/-- `SdEntry::to_bytes` (byte 12 of an eventgroup entry is the reserved
zero byte, byte 3 packs the two option counts). -/
def SdEntry.to_bytes : SdEntry → List Nat
  | .Service _type i1 i2 n1 n2 sid iid maj ttl minor =>
    [_type.toNat, i1, i2, (n1 <<< 4) % 256 ||| (n2 &&& 0x0F)] ++
    u16_be_bytes sid ++ u16_be_bytes iid ++
    [maj, ttl / 2 ^ 16 % 256, ttl / 2 ^ 8 % 256, ttl % 256] ++
    u32_be_bytes minor
  | .Eventgroup _type i1 i2 n1 n2 sid iid maj ttl idr counter egid =>
    [_type.toNat, i1, i2, (n1 <<< 4) % 256 ||| (n2 &&& 0x0F)] ++
    u16_be_bytes sid ++ u16_be_bytes iid ++
    [maj, ttl / 2 ^ 16 % 256, ttl / 2 ^ 8 % 256, ttl % 256, 0,
     (if idr then EVENT_ENTRY_INITIAL_DATA_REQUESTED_FLAG else 0) ||| (counter &&& 0x0F)] ++
    u16_be_bytes egid

/-- `SdEntry::read` (with `read_service`/`read_entry_group` inlined on the
16 entry bytes). -/
def SdEntry.read (bytes : List Nat) : Except ReadError (SdEntry × List Nat) :=
  match bytes with
  | b0 :: b1 :: b2 :: b3 :: b4 :: b5 :: b6 :: b7 :: b8 :: b9 :: b10 :: b11 :: b12 ::
      b13 :: b14 :: b15 :: rest =>
    match b0 with
    | 0x00 => .ok (.Service .FindService b1 b2 (b3 >>> 4) (b3 &&& 0x0F) (be16 b4 b5)
        (be16 b6 b7) b8 (be32 0 b9 b10 b11) (be32 b12 b13 b14 b15), rest)
    | 0x01 => .ok (.Service .OfferService b1 b2 (b3 >>> 4) (b3 &&& 0x0F) (be16 b4 b5)
        (be16 b6 b7) b8 (be32 0 b9 b10 b11) (be32 b12 b13 b14 b15), rest)
    | 0x06 => .ok (.Eventgroup .Subscribe b1 b2 (b3 >>> 4) (b3 &&& 0x0F) (be16 b4 b5)
        (be16 b6 b7) b8 (be32 0 b9 b10 b11)
        (b13 &&& EVENT_ENTRY_INITIAL_DATA_REQUESTED_FLAG != 0) (b13 &&& 0x0F)
        (be16 b14 b15), rest)
    | 0x07 => .ok (.Eventgroup .SubscribeAck b1 b2 (b3 >>> 4) (b3 &&& 0x0F) (be16 b4 b5)
        (be16 b6 b7) b8 (be32 0 b9 b10 b11)
        (b13 &&& EVENT_ENTRY_INITIAL_DATA_REQUESTED_FLAG != 0) (b13 &&& 0x0F)
        (be16 b14 b15), rest)
    | t => .error (.UnknownSdServiceEntryType t)
  | _ => .error .IoError

inductive SdOption
  | Configuration (o : ConfigurationOption)
  | LoadBalancing (o : LoadBalancingOption)
  | Ipv4Endpoint (o : Ipv4EndpointOption)
  | Ipv6Endpoint (o : Ipv6EndpointOption)
  | Ipv4Multicast (o : Ipv4MulticastOption)
  | Ipv6Multicast (o : Ipv6MulticastOption)
  | Ipv4SdEndpoint (o : Ipv4SdEndpointOption)
  | Ipv6SdEndpoint (o : Ipv6SdEndpointOption)
  | UnknownDiscardable (o : UnknownDiscardableOption)
  deriving DecidableEq, Repr

/-- `SdOption::read_ip4_option`. -/
def read_ip4_option (bytes : List Nat) :
    Option ((List Nat × TransportProtocol × Nat) × List Nat) :=
  match bytes with
  | c0 :: c1 :: c2 :: c3 :: _c4 :: c5 :: c6 :: c7 :: rest =>
    some (([c0, c1, c2, c3], transport_protocol_of_raw c5, be16 c6 c7), rest)
  | _ => none

/-- `SdOption::read_ip6_option`. -/
def read_ip6_option (bytes : List Nat) :
    Option ((List Nat × TransportProtocol × Nat) × List Nat) :=
  match bytes with
  | c0 :: c1 :: c2 :: c3 :: c4 :: c5 :: c6 :: c7 :: c8 :: c9 :: c10 :: c11 :: c12 ::
      c13 :: c14 :: c15 :: _c16 :: c17 :: c18 :: c19 :: rest =>
    some (([c0, c1, c2, c3, c4, c5, c6, c7, c8, c9, c10, c11, c12, c13, c14, c15],
      transport_protocol_of_raw c17, be16 c18 c19), rest)
  | _ => none

/-- `SdOption::read`: returns `(read_bytes, option)` (the `u16` sum
`3 + length` wraps) together with the remaining stream.  A `Seek` past the
end of the stream is silent (like the source's comment notes) but the
one-byte read after it fails. -/
def SdOption.read (bytes : List Nat) : Except ReadError ((Nat × SdOption) × List Nat) :=
  match bytes with
  | b0 :: b1 :: b2 :: b3 :: rest =>
    let length := be16 b0 b1
    if length < 1 then .error .SdOptionLengthZero
    else
      let type_raw := b2
      let discardable : Bool := b3 &&& DISCARDABLE_FLAG != 0
      if type_raw = CONFIGURATION_TYPE then
        .ok (((3 + length) % 2 ^ 16,
          .Configuration { discardable, configuration_string := rest.take (length - 1) }),
          rest.drop (length - 1))
      else if type_raw = LOAD_BALANCING_TYPE then
        if LOAD_BALANCING_LEN ≠ length then
          .error (.SdOptionUnexpectedLen LOAD_BALANCING_LEN length type_raw)
        else
          match rest with
          | c0 :: c1 :: c2 :: c3 :: rest2 =>
            .ok (((3 + length) % 2 ^ 16, .LoadBalancing
              { discardable, priority := be16 c0 c1, weight := be16 c2 c3 }), rest2)
          | _ => .error .IoError
      else if type_raw = IPV4_ENDPOINT_TYPE then
        if IPV4_ENDPOINT_LEN ≠ length then
          .error (.SdOptionUnexpectedLen IPV4_ENDPOINT_LEN length type_raw)
        else
          match read_ip4_option rest with
          | none => .error .IoError
          | some ((addr, tp, port), rest2) =>
            .ok (((3 + length) % 2 ^ 16, .Ipv4Endpoint
              { ipv4_address := addr, transport_protocol := tp,
                transport_protocol_number := port }), rest2)
      else if type_raw = IPV6_ENDPOINT_TYPE then
        if IPV6_ENDPOINT_LEN ≠ length then
          .error (.SdOptionUnexpectedLen IPV6_ENDPOINT_LEN length type_raw)
        else
          match read_ip6_option rest with
          | none => .error .IoError
          | some ((addr, tp, port), rest2) =>
            .ok (((3 + length) % 2 ^ 16, .Ipv6Endpoint
              { ipv6_address := addr, transport_protocol := tp,
                transport_protocol_number := port }), rest2)
      else if type_raw = IPV4_MULTICAST_TYPE then
        if IPV4_MULTICAST_LEN ≠ length then
          .error (.SdOptionUnexpectedLen IPV4_MULTICAST_LEN length type_raw)
        else
          match read_ip4_option rest with
          | none => .error .IoError
          | some ((addr, tp, port), rest2) =>
            .ok (((3 + length) % 2 ^ 16, .Ipv4Multicast
              { ipv4_address := addr, transport_protocol := tp,
                transport_protocol_number := port }), rest2)
      else if type_raw = IPV6_MULTICAST_TYPE then
        if IPV6_MULTICAST_LEN ≠ length then
          .error (.SdOptionUnexpectedLen IPV6_MULTICAST_LEN length type_raw)
        else
          match read_ip6_option rest with
          | none => .error .IoError
          | some ((addr, tp, port), rest2) =>
            .ok (((3 + length) % 2 ^ 16, .Ipv6Multicast
              { ipv6_address := addr, transport_protocol := tp,
                transport_protocol_number := port }), rest2)
      else if type_raw = IPV4_SD_ENDPOINT_TYPE then
        if IPV4_SD_ENDPOINT_LEN ≠ length then
          .error (.SdOptionUnexpectedLen IPV4_SD_ENDPOINT_LEN length type_raw)
        else
          match read_ip4_option rest with
          | none => .error .IoError
          | some ((addr, tp, port), rest2) =>
            .ok (((3 + length) % 2 ^ 16, .Ipv4SdEndpoint
              { ipv4_address := addr, transport_protocol := tp,
                transport_protocol_number := port }), rest2)
      else if type_raw = IPV6_SD_ENDPOINT_TYPE then
        if IPV6_SD_ENDPOINT_LEN ≠ length then
          .error (.SdOptionUnexpectedLen IPV6_SD_ENDPOINT_LEN length type_raw)
        else
          match read_ip6_option rest with
          | none => .error .IoError
          | some ((addr, tp, port), rest2) =>
            .ok (((3 + length) % 2 ^ 16, .Ipv6SdEndpoint
              { ipv6_address := addr, transport_protocol := tp,
                transport_protocol_number := port }), rest2)
      else if discardable then
        if length > 1 then
          match rest.drop (length - 2) with
          | [] => .error .IoError
          | _ :: rest2 =>
            .ok (((3 + length) % 2 ^ 16,
              .UnknownDiscardable { length, option_type := type_raw }), rest2)
        else
          .ok (((3 + length) % 2 ^ 16,
            .UnknownDiscardable { length, option_type := type_raw }), rest)
      else .error (.UnknownSdOptionType type_raw)
  | _ => .error .IoError

/-- `SdOption::header_len`. -/
def SdOption.header_len : SdOption → Nat
  | .Configuration o => 3 + (1 + o.configuration_string.length)
  | .LoadBalancing _ => 3 + LOAD_BALANCING_LEN
  | .Ipv4Endpoint _ => 3 + IPV4_ENDPOINT_LEN
  | .Ipv6Endpoint _ => 3 + IPV6_ENDPOINT_LEN
  | .Ipv4Multicast _ => 3 + IPV4_MULTICAST_LEN
  | .Ipv6Multicast _ => 3 + IPV6_MULTICAST_LEN
  | .Ipv4SdEndpoint _ => 3 + IPV4_SD_ENDPOINT_LEN
  | .Ipv6SdEndpoint _ => 3 + IPV6_SD_ENDPOINT_LEN
  | .UnknownDiscardable o => 3 + o.length

/-- `SdOption::append_bytes_to_vec` (the result is the extended buffer). -/
def SdOption.append_bytes_to_vec (o : SdOption) (buffer : List Nat) :
    Except ValueError (List Nat) :=
  match o with
  | .Configuration o =>
    .ok (buffer ++ u16_be_bytes (1 + o.configuration_string.length) ++
      [CONFIGURATION_TYPE, if o.discardable then DISCARDABLE_FLAG else 0] ++
      o.configuration_string)
  | .LoadBalancing o =>
    .ok (buffer ++ u16_be_bytes LOAD_BALANCING_LEN ++
      [LOAD_BALANCING_TYPE, if o.discardable then DISCARDABLE_FLAG else 0] ++
      u16_be_bytes o.priority ++ u16_be_bytes o.weight)
  | .Ipv4Endpoint o =>
    .ok (buffer ++ u16_be_bytes IPV4_ENDPOINT_LEN ++ [IPV4_ENDPOINT_TYPE, 0] ++
      o.ipv4_address ++ [0, o.transport_protocol.toNat] ++
      u16_be_bytes o.transport_protocol_number)
  | .Ipv6Endpoint o =>
    .ok (buffer ++ u16_be_bytes IPV6_ENDPOINT_LEN ++ [IPV6_ENDPOINT_TYPE, 0] ++
      o.ipv6_address ++ [0, o.transport_protocol.toNat] ++
      u16_be_bytes o.transport_protocol_number)
  | .Ipv4Multicast o =>
    .ok (buffer ++ u16_be_bytes IPV4_MULTICAST_LEN ++ [IPV4_MULTICAST_TYPE, 0] ++
      o.ipv4_address ++ [0, o.transport_protocol.toNat] ++
      u16_be_bytes o.transport_protocol_number)
  | .Ipv6Multicast o =>
    .ok (buffer ++ u16_be_bytes IPV6_MULTICAST_LEN ++ [IPV6_MULTICAST_TYPE, 0] ++
      o.ipv6_address ++ [0, o.transport_protocol.toNat] ++
      u16_be_bytes o.transport_protocol_number)
  | .Ipv4SdEndpoint o =>
    .ok (buffer ++ u16_be_bytes IPV4_SD_ENDPOINT_LEN ++ [IPV4_SD_ENDPOINT_TYPE, 0] ++
      o.ipv4_address ++ [0, o.transport_protocol.toNat] ++
      u16_be_bytes o.transport_protocol_number)
  | .Ipv6SdEndpoint o =>
    .ok (buffer ++ u16_be_bytes IPV6_SD_ENDPOINT_LEN ++ [IPV6_SD_ENDPOINT_TYPE, 0] ++
      o.ipv6_address ++ [0, o.transport_protocol.toNat] ++
      u16_be_bytes o.transport_protocol_number)
  | .UnknownDiscardable o => .error (.SdUnknownDiscardableOption o.option_type)

structure SdHeaderFlags where
  reboot : Bool
  unicast : Bool
  explicit_initial_data_control : Bool
  deriving DecidableEq, Repr

/-- `SdHeaderFlags::to_bytes`: the first 4 bytes of an SD header. -/
def SdHeaderFlags.to_bytes (f : SdHeaderFlags) : List Nat :=
  [(if f.reboot then REBOOT_FLAG else 0) |||
   (if f.unicast then UNICAST_FLAG else 0) |||
   (if f.explicit_initial_data_control then EXPLICIT_INITIAL_DATA_CONTROL_FLAG else 0),
   0, 0, 0]

structure SdHeader where
  flags : SdHeaderFlags
  entries : List SdEntry
  options : List SdOption
  deriving DecidableEq, Repr

/-- The `for e in &self.entries { bytes.extend(e.to_bytes()) }` loop. -/
def entriesToBytes : List SdEntry → List Nat
  | [] => []
  | e :: rest => e.to_bytes ++ entriesToBytes rest

/-- `self.options.iter().map(|o| o.header_len()).sum()`. -/
def optionsLen : List SdOption → Nat
  | [] => 0
  | o :: rest => o.header_len + optionsLen rest

/-- The `for o in &self.options { o.append_bytes_to_vec(&mut bytes)? }`
loop. -/
def appendOptions (options : List SdOption) (buffer : List Nat) :
    Except ValueError (List Nat) :=
  match options with
  | [] => .ok buffer
  | o :: rest =>
    match o.append_bytes_to_vec buffer with
    | .error e => .error e
    | .ok buffer2 => appendOptions rest buffer2

/-- `SdHeader::to_bytes_vec`. -/
def SdHeader.to_bytes_vec (h : SdHeader) : Except ValueError (List Nat) :=
  let entries_len := h.entries.length * ENTRY_LEN
  let options_len := optionsLen h.options
  appendOptions h.options
    (h.flags.to_bytes ++ u32_be_bytes entries_len ++ entriesToBytes h.entries ++
      u32_be_bytes options_len)

/-- The `for _ in 0..num_entries { entries.push(SdEntry::read(reader)?) }`
loop. -/
def readEntries : Nat → List Nat → Except ReadError (List SdEntry × List Nat)
  | 0, bytes => .ok ([], bytes)
  | n + 1, bytes =>
    match SdEntry.read bytes with
    | .error e => .error e
    | .ok (entry, rest) =>
      match readEntries n rest with
      | .error e => .error e
      | .ok (entries, rest2) => .ok (entry :: entries, rest2)

/-- The `while options_length > 0` loop of `SdHeader::read`.  The loop is
not structurally recursive (the `u32` subtraction can wrap around), but
every iteration consumes at least four bytes of the stream, so the fuel
`bytes.length + 1` passed by `SdHeader.read` can never run out before the
stream is exhausted; the `fuel = 0` branch is unreachable from there. -/
def readOptions (fuel : Nat) (options_length : Nat) (bytes : List Nat) :
    Except ReadError (List SdOption × List Nat) :=
  match fuel with
  | 0 => .error .IoError
  | fuel + 1 =>
    if options_length = 0 then .ok ([], bytes)
    else
      match SdOption.read bytes with
      | .error e => .error e
      | .ok ((read_bytes, option), rest) =>
        match readOptions fuel
            ((options_length + (2 ^ 32 - read_bytes % 2 ^ 32)) % 2 ^ 32) rest with
        | .error e => .error e
        | .ok (options, rest2) => .ok (option :: options, rest2)

/-- `SdHeader::read`. -/
def SdHeader.read (bytes : List Nat) : Except ReadError (SdHeader × List Nat) :=
  match bytes with
  | b0 :: _b1 :: _b2 :: _b3 :: b4 :: b5 :: b6 :: b7 :: rest =>
    let length_entries := be32 b4 b5 b6 b7
    if length_entries > MAX_ENTRIES_LEN then
      .error (.SdEntriesArrayLengthTooLarge length_entries)
    else
      match readEntries (length_entries / ENTRY_LEN) rest with
      | .error e => .error e
      | .ok (entries, rest2) =>
        match rest2 with
        | c0 :: c1 :: c2 :: c3 :: rest3 =>
          let options_length := be32 c0 c1 c2 c3
          if options_length > MAX_OPTIONS_LEN then
            .error (.SdOptionsArrayLengthTooLarge options_length)
          else
            match readOptions (rest3.length + 1) options_length rest3 with
            | .error e => .error e
            | .ok (options, rest4) =>
              .ok ({ flags :=
                       { reboot := b0 &&& REBOOT_FLAG != 0,
                         unicast := b0 &&& UNICAST_FLAG != 0,
                         explicit_initial_data_control :=
                           b0 &&& EXPLICIT_INITIAL_DATA_CONTROL_FLAG != 0 },
                     entries, options }, rest4)
        | _ => .error .IoError
  | _ => .error .IoError

/-- `true` exactly on the `UnknownDiscardable` placeholder variant. -/
def SdOption.isUnknownDiscardable : SdOption → Bool
  | .UnknownDiscardable _ => true
  | _ => false

/-- Field bounds under which a transport protocol survives the byte trip
(the `Generic` passthrough must not collide with the dedicated `Tcp`/`Udp`
byte values). -/
def TransportProtocol.wf : TransportProtocol → Prop
  | .Generic v => v < 256 ∧ v ≠ 0x06 ∧ v ≠ 0x11
  | _ => True

/-- Field bounds of an entry as enforced by the source's constructors
(`new_service_entry`/`new_eventgroup`) and the `u8`/`u16`/`u32` field
types. -/
def SdEntry.wf : SdEntry → Prop
  | .Service _ i1 i2 n1 n2 sid iid maj ttl minor =>
    i1 < 256 ∧ i2 < 256 ∧ n1 < 16 ∧ n2 < 16 ∧ sid < 2 ^ 16 ∧ iid < 2 ^ 16 ∧
    maj < 256 ∧ ttl < 2 ^ 24 ∧ minor < 2 ^ 32
  | .Eventgroup _ i1 i2 n1 n2 sid iid maj ttl _ counter egid =>
    i1 < 256 ∧ i2 < 256 ∧ n1 < 16 ∧ n2 < 16 ∧ sid < 2 ^ 16 ∧ iid < 2 ^ 16 ∧
    maj < 256 ∧ ttl < 2 ^ 24 ∧ counter < 16 ∧ egid < 2 ^ 16

/-- Field bounds of an option as enforced by the source's field types
(`u16` values, fixed-size addresses) plus the `Generic` constraint. -/
def SdOption.wf : SdOption → Prop
  | .Configuration o => 1 + o.configuration_string.length < 2 ^ 16
  | .LoadBalancing o => o.priority < 2 ^ 16 ∧ o.weight < 2 ^ 16
  | .Ipv4Endpoint o => o.ipv4_address.length = 4 ∧ o.transport_protocol.wf ∧
      o.transport_protocol_number < 2 ^ 16
  | .Ipv6Endpoint o => o.ipv6_address.length = 16 ∧ o.transport_protocol.wf ∧
      o.transport_protocol_number < 2 ^ 16
  | .Ipv4Multicast o => o.ipv4_address.length = 4 ∧ o.transport_protocol.wf ∧
      o.transport_protocol_number < 2 ^ 16
  | .Ipv6Multicast o => o.ipv6_address.length = 16 ∧ o.transport_protocol.wf ∧
      o.transport_protocol_number < 2 ^ 16
  | .Ipv4SdEndpoint o => o.ipv4_address.length = 4 ∧ o.transport_protocol.wf ∧
      o.transport_protocol_number < 2 ^ 16
  | .Ipv6SdEndpoint o => o.ipv6_address.length = 16 ∧ o.transport_protocol.wf ∧
      o.transport_protocol_number < 2 ^ 16
  | .UnknownDiscardable _ => True

/-- A PDU whose fields are in range and whose entries and options arrays
fit within the UDP payload bound. -/
def SdHeader.wf (h : SdHeader) : Prop :=
  (∀ e ∈ h.entries, e.wf) ∧ (∀ o ∈ h.options, o.wf) ∧
  h.entries.length * ENTRY_LEN ≤ MAX_ENTRIES_LEN ∧
  optionsLen h.options ≤ MAX_OPTIONS_LEN

/-! ## Helper lemmas -/

instance {ε α : Type _} [DecidableEq ε] [DecidableEq α] : DecidableEq (Except ε α) :=
  fun a b =>
  match a, b with
  | .error e, .error e' =>
    if h : e = e' then .isTrue (by rw [h]) else .isFalse (by simp [h])
  | .ok v, .ok v' =>
    if h : v = v' then .isTrue (by rw [h]) else .isFalse (by simp [h])
  | .error _, .ok _ => .isFalse (by simp)
  | .ok _, .error _ => .isFalse (by simp)

theorem getD_take_of_lt (l : List Nat) (n i d : Nat) (h : i < n) :
    (l.take n).getD i d = l.getD i d := by
  simp [List.getD_eq_getElem?_getD, List.getElem?_take, h]

theorem message_type_of_raw_eq_none (v : Nat)
    (h : ¬(v = 0x0 ∨ v = 0x1 ∨ v = 0x2 ∨ v = 0x80 ∨ v = 0x81)) :
    message_type_of_raw v = none := by
  unfold message_type_of_raw
  split <;> simp_all

theorem message_type_of_raw_isSome (v : Nat)
    (h : v = 0x0 ∨ v = 0x1 ∨ v = 0x2 ∨ v = 0x80 ∨ v = 0x81) :
    (message_type_of_raw v).isSome := by
  rcases h with h | h | h | h | h <;> subst h <;> rfl

/-- `from_slice` with its `let` bindings expanded (definitional). -/
theorem from_slice_eq (slice : List Nat) :
    SomeipMsgSlice.from_slice slice =
      if slice.length < 16 then .error (.UnexpectedEndOfSlice slice.length)
      else if get_be_u32 slice 4 < 8 then
        .error (.LengthFieldTooSmall (get_be_u32 slice 4))
      else if slice.length < get_be_u32 slice 4 + 8 then
        .error (.UnexpectedEndOfSlice slice.length)
      else if 1 ≠ slice.getD 12 0 then
        .error (.UnsupportedProtocolVersion (slice.getD 12 0))
      else if (slice.getD 14 0 &&& 0x20 != 0 : Bool) ∧ get_be_u32 slice 4 < 12 then
        .error (.LengthFieldTooSmall (get_be_u32 slice 4))
      else
        match message_type_of_raw (slice.getD 14 0 &&& 0xDF) with
        | none => .error (.UnknownMessageType (slice.getD 14 0))
        | some _ =>
          .ok { tp := slice.getD 14 0 &&& 0x20 != 0,
                slice := slice.take (get_be_u32 slice 4 + 8) } := rfl

/-- `from_slice` succeeds exactly on slices passing all the checks, and
then returns the view `⟨tp flag, slice[0..total_length]⟩`. -/
theorem from_slice_ok_iff (slice : List Nat) (v : SomeipMsgSlice) :
    SomeipMsgSlice.from_slice slice = .ok v ↔
      (16 ≤ slice.length ∧
       8 ≤ get_be_u32 slice 4 ∧
       get_be_u32 slice 4 + 8 ≤ slice.length ∧
       slice.getD 12 0 = 1 ∧
       (slice.getD 14 0 &&& 0x20 ≠ 0 → 12 ≤ get_be_u32 slice 4) ∧
       (message_type_of_raw (slice.getD 14 0 &&& 0xDF)).isSome ∧
       v = { tp := slice.getD 14 0 &&& 0x20 != 0,
             slice := slice.take (get_be_u32 slice 4 + 8) }) := by
  rw [from_slice_eq]
  constructor
  · intro h
    split at h
    · simp at h
    split at h
    · simp at h
    split at h
    · simp at h
    split at h
    · simp at h
    split at h
    · simp at h
    split at h
    · simp at h
    · rename_i mt hmt
      have htp : ¬((slice.getD 14 0 &&& 0x20 != 0) = true ∧ get_be_u32 slice 4 < 12) := by
        assumption
      have h16 : ¬slice.length < 16 := by assumption
      have hlen : ¬get_be_u32 slice 4 < 8 := by assumption
      have htot : ¬slice.length < get_be_u32 slice 4 + 8 := by assumption
      have hver : ¬1 ≠ slice.getD 12 0 := by assumption
      simp only [Except.ok.injEq] at h
      refine ⟨by omega, by omega, by omega, by omega, fun hflag => ?_,
        by rw [hmt]; rfl, h.symm⟩
      rcases not_and_or.mp htp with hc | hc
      · exact absurd (by simpa [bne_iff_ne] using hflag) hc
      · omega
  · rintro ⟨h16, hlen, htot, hver, htp, hmt, rfl⟩
    split_ifs with h1 h2 h3 h4 h5
    · omega
    · omega
    · omega
    · omega
    · exact absurd (htp (by simpa [bne_iff_ne] using h5.1)) (by omega)
    · obtain ⟨mt, hmt'⟩ := Option.isSome_iff_exists.mp hmt
      rw [hmt']

/-- Claim C8: `TpHeader::with_offset(o, m)` succeeds exactly when
`o % 16 = 0` and otherwise fails with `TpOffsetNotMultipleOf16 o`;
`set_offset` with a non multiple of 16 returns the same error and leaves
the header unchanged. -/
theorem tp_header_offset_validation (o : Nat) (m : Bool) (h : TpHeader) :
    (o % 16 = 0 → TpHeader.with_offset o m = .ok { offset := o, more_segment := m }) ∧
    (o % 16 ≠ 0 → TpHeader.with_offset o m = .error (.TpOffsetNotMultipleOf16 o)) ∧
    (o % 16 ≠ 0 → h.set_offset o = (some (.TpOffsetNotMultipleOf16 o), h)) := by
  refine ⟨fun h0 => ?_, fun h0 => ?_, fun h0 => ?_⟩
  · rw [TpHeader.with_offset, if_neg (by omega)]
  · rw [TpHeader.with_offset, if_pos (by omega)]
  · rw [TpHeader.set_offset, if_pos (by omega)]

/-- Claim C2: `from_slice` rejects a slice shorter than 16 bytes with
`UnexpectedEndOfSlice`; otherwise with `total_len = length + 8` it rejects
`length < 8` with `LengthFieldTooSmall`, rejects a slice shorter than
`total_len` with `UnexpectedEndOfSlice`, requires `length ≥ 12` when the
TP flag is set, applies the protocol version (`= 1`) and message type
(TP flag masked out, value in `{0x00, 0x01, 0x02, 0x80, 0x81}`) checks,
and on success returns a view borrowing exactly `slice[0..total_len]`
whose payload is the slice from byte 16 (20 when TP) to `total_len`. -/
theorem from_slice_characterization (slice : List Nat) :
    (slice.length < 16 → SomeipMsgSlice.from_slice slice = .error (.UnexpectedEndOfSlice slice.length)) ∧
    (16 ≤ slice.length →
      (get_be_u32 slice 4 < 8 →
        SomeipMsgSlice.from_slice slice = .error (.LengthFieldTooSmall (get_be_u32 slice 4))) ∧
      (8 ≤ get_be_u32 slice 4 → slice.length < get_be_u32 slice 4 + 8 →
        SomeipMsgSlice.from_slice slice = .error (.UnexpectedEndOfSlice slice.length)) ∧
      (8 ≤ get_be_u32 slice 4 → get_be_u32 slice 4 + 8 ≤ slice.length →
        slice.getD 12 0 ≠ 1 →
        SomeipMsgSlice.from_slice slice = .error (.UnsupportedProtocolVersion (slice.getD 12 0))) ∧
      (8 ≤ get_be_u32 slice 4 → get_be_u32 slice 4 + 8 ≤ slice.length →
        slice.getD 12 0 = 1 → slice.getD 14 0 &&& 0x20 ≠ 0 → get_be_u32 slice 4 < 12 →
        SomeipMsgSlice.from_slice slice = .error (.LengthFieldTooSmall (get_be_u32 slice 4))) ∧
      (8 ≤ get_be_u32 slice 4 → get_be_u32 slice 4 + 8 ≤ slice.length →
        slice.getD 12 0 = 1 → (slice.getD 14 0 &&& 0x20 ≠ 0 → 12 ≤ get_be_u32 slice 4) →
        ¬(slice.getD 14 0 &&& 0xDF = 0x0 ∨ slice.getD 14 0 &&& 0xDF = 0x1 ∨
          slice.getD 14 0 &&& 0xDF = 0x2 ∨ slice.getD 14 0 &&& 0xDF = 0x80 ∨
          slice.getD 14 0 &&& 0xDF = 0x81) →
        SomeipMsgSlice.from_slice slice = .error (.UnknownMessageType (slice.getD 14 0)))) ∧
    (∀ v, SomeipMsgSlice.from_slice slice = .ok v →
      v.slice = slice.take (get_be_u32 slice 4 + 8) ∧
      v.tp = (slice.getD 14 0 &&& 0x20 != 0) ∧
      v.payload = (slice.take (get_be_u32 slice 4 + 8)).drop (if v.tp then 20 else 16)) := by
  refine ⟨fun hshort => ?_, fun h16 => ⟨fun hlen => ?_, fun hlen htot => ?_,
    fun hlen htot hver => ?_, fun hlen htot hver hflag h12 => ?_,
    fun hlen htot hver htp hmt => ?_⟩, fun v hok => ?_⟩
  · rw [from_slice_eq, if_pos hshort]
  · rw [from_slice_eq, if_neg (by omega), if_pos hlen]
  · rw [from_slice_eq, if_neg (by omega), if_neg (by omega), if_pos htot]
  · rw [from_slice_eq, if_neg (by omega), if_neg (by omega), if_neg (by omega),
      if_pos (by omega)]
  · rw [from_slice_eq, if_neg (by omega), if_neg (by omega), if_neg (by omega),
      if_neg (by omega), if_pos (by exact ⟨by simpa [bne_iff_ne] using hflag, h12⟩)]
  · rw [from_slice_eq, if_neg (by omega), if_neg (by omega), if_neg (by omega),
      if_neg (by omega),
      if_neg (by rintro ⟨hf, hl⟩; exact absurd (htp (by simpa [bne_iff_ne] using hf)) (by omega))]
    rw [message_type_of_raw_eq_none _ hmt]
  · obtain ⟨hb16, hblen, hbtot, hbver, hbtp, hbmt, rfl⟩ := (from_slice_ok_iff slice v).mp hok
    refine ⟨rfl, rfl, ?_⟩
    simp only [SomeipMsgSlice.payload, SOMEIP_HEADER_LENGTH, TP_HEADER_LENGTH]
    split <;> rename_i hsp <;> simp_all

/-- Claim C10: a view built by `from_slice` never hits the `panic!`
branch of `message_type()`: construction already rejected any slice whose
message type byte (TP flag masked out) is not one of the five accepted
values, so decoding always succeeds. -/
theorem message_type_no_panic (slice : List Nat) (v : SomeipMsgSlice)
    (hok : SomeipMsgSlice.from_slice slice = .ok v) :
    v.message_type.isSome := by
  obtain ⟨hb16, hblen, hbtot, hbver, hbtp, hbmt, rfl⟩ := (from_slice_ok_iff slice v).mp hok
  simp only [SomeipMsgSlice.message_type, SomeipMsgSlice.message_type_raw]
  rwa [getD_take_of_lt _ _ _ _ (by omega)]

theorem message_type_no_panic_witness :
    (SomeipMsgSlice.message_type
      { tp := false,
        slice := [0x12, 0x34, 0x82, 0x34, 0, 0, 0, 0x0C, 0, 0, 0, 1, 1, 1, 2, 0, 1, 2, 3, 4] }).isSome :=
  message_type_no_panic
    [0x12, 0x34, 0x82, 0x34, 0, 0, 0, 0x0C, 0, 0, 0, 1, 1, 1, 2, 0, 1, 2, 3, 4]
    { tp := false,
      slice := [0x12, 0x34, 0x82, 0x34, 0, 0, 0, 0x0C, 0, 0, 0, 1, 1, 1, 2, 0, 1, 2, 3, 4] }
    (by decide)

/-- Claim C7: once the message iterator yields an `Err`, every later call
to `next()` returns `None`: the error step moves the remaining slice to a
zero length position, and `next` on an empty slice always stays put
yielding `None`. -/
theorem iterator_stops_after_error (it : SomeipMsgsIterator) (e : ReadError)
    (herr : it.next.1 = some (.error e)) :
    ∀ n, SomeipMsgsIterator.runNext it.next.2 n = none := by
  have hempty : it.next.2 = ⟨[]⟩ := by
    unfold SomeipMsgsIterator.next at herr ⊢
    split at herr
    · simp at herr
    · split at herr <;> simp_all
  rw [hempty]
  intro n
  induction n with
  | zero => rfl
  | succ n ih =>
    show SomeipMsgsIterator.runNext (SomeipMsgsIterator.next ⟨[]⟩).2 n = none
    have : (SomeipMsgsIterator.next ⟨[]⟩).2 = ⟨[]⟩ := rfl
    rw [this]
    exact ih

theorem iterator_stops_after_error_witness :
    SomeipMsgsIterator.runNext (SomeipMsgsIterator.next ⟨[0x12, 0x34]⟩).2 5 = none :=
  iterator_stops_after_error ⟨[0x12, 0x34]⟩ (.UnexpectedEndOfSlice 2) (by decide) 5

/-! ## Helper lemmas for the header write/read round trip -/

theorem be32_of_be_bytes (v : Nat) (h : v < 2 ^ 32) :
    be32 (v / 2 ^ 24 % 256) (v / 2 ^ 16 % 256) (v / 2 ^ 8 % 256) (v % 256) = v := by
  unfold be32
  omega

/-- The facts needed about the last TP header byte (`offset % 256`, whose
low four bits are zero). -/
theorem tp_byte_facts : ∀ b : Nat, b < 256 → b % 16 = 0 →
    (b ||| 1) &&& 0xF0 = b ∧ (b ||| 1) &&& 0b0001 = 1 ∧
    b &&& 0xF0 = b ∧ b &&& 0b0001 = 0 := by decide

theorem mod_256_mod_16 (v : Nat) (h : v % 16 = 0) : v % 256 % 16 = 0 := by omega

/-- Mask facts about the encoded message type byte. -/
theorem mt_byte_facts (mt : MessageType) :
    (mt.toNat ||| 0x20) &&& 0xDF = mt.toNat ∧ (mt.toNat ||| 0x20) &&& 0x20 = 0x20 ∧
    mt.toNat &&& 0xDF = mt.toNat ∧ mt.toNat &&& 0x20 = 0 ∧
    message_type_of_raw mt.toNat = some mt := by
  cases mt <;> decide

/-- `SomeipHeader.read` on a stream whose first 16 bytes are explicit
(definitional: the length test and the `take`/`drop`/`getD` calls all
reduce on a cons chain). -/
theorem read_explicit (b0 b1 b2 b3 b4 b5 b6 b7 b8 b9 b10 b11 b12 b13 b14 b15 : Nat)
    (rest : List Nat) :
    SomeipHeader.read (b0 :: b1 :: b2 :: b3 :: b4 :: b5 :: b6 :: b7 :: b8 :: b9 ::
      b10 :: b11 :: b12 :: b13 :: b14 :: b15 :: rest) =
      (if be32 b4 b5 b6 b7 < 8 then
        .error (.Content (.LengthFieldTooSmall (be32 b4 b5 b6 b7)))
      else if b12 ≠ 1 then .error (.Content (.UnsupportedProtocolVersion b12))
      else
        match message_type_of_raw (b14 &&& 0xDF) with
        | none => .error (.Content (.UnknownMessageType b14))
        | some message_type =>
          if b14 &&& 0x20 ≠ 0 then
            match TpHeader.read rest with
            | none => .error .Io
            | some (tp, rest2) =>
              .ok ({ message_id := be32 b0 b1 b2 b3, length := be32 b4 b5 b6 b7,
                     request_id := be32 b8 b9 b10 b11, interface_version := b13,
                     message_type, return_code := b15, tp_header := some tp }, rest2)
          else
            .ok ({ message_id := be32 b0 b1 b2 b3, length := be32 b4 b5 b6 b7,
                   request_id := be32 b8 b9 b10 b11, interface_version := b13,
                   message_type, return_code := b15, tp_header := none }, rest)) := rfl

theorem tp_read_explicit (o0 o1 o2 o3 : Nat) (rest : List Nat) :
    TpHeader.read (o0 :: o1 :: o2 :: o3 :: rest) =
      some ({ offset := be32 o0 o1 o2 (o3 &&& 0xF0),
              more_segment := o3 &&& 0b0001 != 0 }, rest) := rfl

/-- Decoding the bytes written for a TP header recovers it. -/
theorem tp_read_to_bytes (tp : TpHeader) (rest : List Nat)
    (hlt : tp.offset < 2 ^ 32) (hmod : tp.offset % 16 = 0) :
    TpHeader.read (tp.to_bytes ++ rest) = some (tp, rest) := by
  obtain ⟨off, more⟩ := tp
  have hb := tp_byte_facts (off % 256) (Nat.mod_lt _ (by norm_num))
    (mod_256_mod_16 off hmod)
  cases more with
  | false =>
    rw [show TpHeader.to_bytes ⟨off, false⟩ ++ rest =
      (off / 2 ^ 24 % 256) :: (off / 2 ^ 16 % 256) :: (off / 2 ^ 8 % 256) ::
      (off % 256) :: rest from rfl]
    rw [tp_read_explicit, hb.2.2.1, be32_of_be_bytes off hlt]
    simp [hb.2.2.2]
  | true =>
    rw [show TpHeader.to_bytes ⟨off, true⟩ ++ rest =
      (off / 2 ^ 24 % 256) :: (off / 2 ^ 16 % 256) :: (off / 2 ^ 8 % 256) ::
      (off % 256 ||| 1) :: rest from rfl]
    rw [tp_read_explicit, hb.1, be32_of_be_bytes off hlt]
    simp [hb.2.1]

/-- `write_raw` as an explicit cons chain (no TP header case). -/
theorem write_raw_explicit_notp (mid len rid iv rc : Nat) (mt : MessageType)
    (rest : List Nat) :
    SomeipHeader.write_raw
        { message_id := mid, length := len, request_id := rid,
          interface_version := iv, message_type := mt, return_code := rc,
          tp_header := none } ++ rest =
      (mid / 2 ^ 24 % 256) :: (mid / 2 ^ 16 % 256) :: (mid / 2 ^ 8 % 256) :: (mid % 256) ::
      (len / 2 ^ 24 % 256) :: (len / 2 ^ 16 % 256) :: (len / 2 ^ 8 % 256) :: (len % 256) ::
      (rid / 2 ^ 24 % 256) :: (rid / 2 ^ 16 % 256) :: (rid / 2 ^ 8 % 256) :: (rid % 256) ::
      1 :: iv :: mt.toNat :: rc :: rest := rfl

/-- `write_raw` as an explicit cons chain (TP header case). -/
theorem write_raw_explicit_tp (mid len rid iv rc : Nat) (mt : MessageType)
    (tp : TpHeader) (rest : List Nat) :
    SomeipHeader.write_raw
        { message_id := mid, length := len, request_id := rid,
          interface_version := iv, message_type := mt, return_code := rc,
          tp_header := some tp } ++ rest =
      (mid / 2 ^ 24 % 256) :: (mid / 2 ^ 16 % 256) :: (mid / 2 ^ 8 % 256) :: (mid % 256) ::
      (len / 2 ^ 24 % 256) :: (len / 2 ^ 16 % 256) :: (len / 2 ^ 8 % 256) :: (len % 256) ::
      (rid / 2 ^ 24 % 256) :: (rid / 2 ^ 16 % 256) :: (rid / 2 ^ 8 % 256) :: (rid % 256) ::
      1 :: iv :: (mt.toNat ||| 0x20) :: rc :: (tp.to_bytes ++ rest) := by
  show SomeipHeader.base_to_bytes _ ++ tp.to_bytes ++ rest = _
  rw [List.append_assoc]
  exact rfl

/-- Reading back a written header recovers it (stream version). -/
theorem read_write_raw (h : SomeipHeader) (rest : List Nat)
    (hmid : h.message_id < 2 ^ 32) (hlen : h.length < 2 ^ 32)
    (hrid : h.request_id < 2 ^ 32)
    (hlen8 : SOMEIP_LEN_OFFSET_TO_PAYLOAD ≤ h.length)
    (htp : ∀ tp ∈ h.tp_header, tp.offset < 2 ^ 32 ∧ tp.offset % 16 = 0) :
    SomeipHeader.read (h.write_raw ++ rest) = .ok (h, rest) := by
  obtain ⟨mid, len, rid, iv, mt, rc, tph⟩ := h
  simp only [SOMEIP_LEN_OFFSET_TO_PAYLOAD] at hlen8
  simp only at hmid hlen hrid htp
  have hmt := mt_byte_facts mt
  cases tph with
  | none =>
    rw [write_raw_explicit_notp, read_explicit, be32_of_be_bytes len hlen,
      be32_of_be_bytes mid hmid, be32_of_be_bytes rid hrid,
      if_neg (by omega), if_neg (by simp), hmt.2.2.1, hmt.2.2.2.2]
    simp [hmt.2.2.2.1]
  | some tp =>
    obtain ⟨hofflt, hoffmod⟩ := htp tp rfl
    rw [write_raw_explicit_tp, read_explicit, be32_of_be_bytes len hlen,
      be32_of_be_bytes mid hmid, be32_of_be_bytes rid hrid,
      if_neg (by omega), if_neg (by simp), hmt.1, hmt.2.2.2.2]
    simp [hmt.2.1, tp_read_to_bytes tp rest hofflt hoffmod]

theorem get_be_u32_explicit0 (c0 c1 c2 c3 : Nat) (rest : List Nat) :
    get_be_u32 (c0 :: c1 :: c2 :: c3 :: rest) 0 = be32 c0 c1 c2 c3 := rfl

theorem get_be_u32_explicit4 (c0 c1 c2 c3 c4 c5 c6 c7 : Nat) (rest : List Nat) :
    get_be_u32 (c0 :: c1 :: c2 :: c3 :: c4 :: c5 :: c6 :: c7 :: rest) 4 =
      be32 c4 c5 c6 c7 := rfl

theorem get_be_u32_explicit8 (c0 c1 c2 c3 c4 c5 c6 c7 c8 c9 c10 c11 : Nat)
    (rest : List Nat) :
    get_be_u32 (c0 :: c1 :: c2 :: c3 :: c4 :: c5 :: c6 :: c7 :: c8 :: c9 :: c10 ::
      c11 :: rest) 8 = be32 c8 c9 c10 c11 := rfl

theorem getD_explicit (c0 c1 c2 c3 c4 c5 c6 c7 c8 c9 c10 c11 c12 c13 c14 c15 : Nat)
    (rest : List Nat) :
    (c0 :: c1 :: c2 :: c3 :: c4 :: c5 :: c6 :: c7 :: c8 :: c9 :: c10 :: c11 :: c12 ::
        c13 :: c14 :: c15 :: rest).getD 12 0 = c12 ∧
    (c0 :: c1 :: c2 :: c3 :: c4 :: c5 :: c6 :: c7 :: c8 :: c9 :: c10 :: c11 :: c12 ::
        c13 :: c14 :: c15 :: rest).getD 13 0 = c13 ∧
    (c0 :: c1 :: c2 :: c3 :: c4 :: c5 :: c6 :: c7 :: c8 :: c9 :: c10 :: c11 :: c12 ::
        c13 :: c14 :: c15 :: rest).getD 14 0 = c14 ∧
    (c0 :: c1 :: c2 :: c3 :: c4 :: c5 :: c6 :: c7 :: c8 :: c9 :: c10 :: c11 :: c12 ::
        c13 :: c14 :: c15 :: rest).getD 15 0 = c15 :=
  ⟨rfl, rfl, rfl, rfl⟩

/-- `from_slice_unchecked` decodes the bytes written for a TP header. -/
theorem tp_unchecked_to_bytes (tp : TpHeader) (rest : List Nat)
    (hlt : tp.offset < 2 ^ 32) (hmod : tp.offset % 16 = 0) :
    TpHeader.from_slice_unchecked (tp.to_bytes ++ rest) = tp := by
  obtain ⟨off, more⟩ := tp
  have hb := tp_byte_facts (off % 256) (Nat.mod_lt _ (by norm_num))
    (mod_256_mod_16 off hmod)
  cases more with
  | false =>
    rw [show TpHeader.to_bytes ⟨off, false⟩ ++ rest =
      (off / 2 ^ 24 % 256) :: (off / 2 ^ 16 % 256) :: (off / 2 ^ 8 % 256) ::
      (off % 256) :: rest from rfl]
    show TpHeader.mk
      (be32 (off / 2 ^ 24 % 256) (off / 2 ^ 16 % 256) (off / 2 ^ 8 % 256)
        (off % 256 &&& 0xF0))
      (off % 256 &&& 0b0001 != 0) = _
    rw [hb.2.2.1, be32_of_be_bytes off hlt]
    simp [hb.2.2.2]
  | true =>
    rw [show TpHeader.to_bytes ⟨off, true⟩ ++ rest =
      (off / 2 ^ 24 % 256) :: (off / 2 ^ 16 % 256) :: (off / 2 ^ 8 % 256) ::
      (off % 256 ||| 1) :: rest from rfl]
    show TpHeader.mk
      (be32 (off / 2 ^ 24 % 256) (off / 2 ^ 16 % 256) (off / 2 ^ 8 % 256)
        ((off % 256 ||| 1) &&& 0xF0))
      ((off % 256 ||| 1) &&& 0b0001 != 0) = _
    rw [hb.1, be32_of_be_bytes off hlt]
    simp [hb.2.1]

/-- A slice view over a written header followed by exactly the payload the
length field accounts for parses back to the header and that payload. -/
theorem from_slice_write_raw (h : SomeipHeader) (payload : List Nat)
    (hmid : h.message_id < 2 ^ 32) (hlen : h.length < 2 ^ 32)
    (hrid : h.request_id < 2 ^ 32)
    (htp : ∀ tp ∈ h.tp_header, tp.offset < 2 ^ 32 ∧ tp.offset % 16 = 0)
    (hplen : h.length = SOMEIP_LEN_OFFSET_TO_PAYLOAD +
      (h.tp_header.elim 0 fun _ => TP_HEADER_LENGTH) + payload.length) :
    ∃ v, SomeipMsgSlice.from_slice (h.write_raw ++ payload) = .ok v ∧
      v.slice = h.write_raw ++ payload ∧ v.to_header = some h ∧ v.payload = payload := by
  obtain ⟨mid, len, rid, iv, mt, rc, tph⟩ := h
  simp only [SOMEIP_LEN_OFFSET_TO_PAYLOAD, TP_HEADER_LENGTH] at hplen
  simp only at hmid hlen hrid htp
  have hmt := mt_byte_facts mt
  cases tph with
  | none =>
    simp only [Option.elim_none] at hplen
    rw [write_raw_explicit_notp]
    set chain := (mid / 2 ^ 24 % 256) :: (mid / 2 ^ 16 % 256) :: (mid / 2 ^ 8 % 256) ::
      (mid % 256) ::
      (len / 2 ^ 24 % 256) :: (len / 2 ^ 16 % 256) :: (len / 2 ^ 8 % 256) :: (len % 256) ::
      (rid / 2 ^ 24 % 256) :: (rid / 2 ^ 16 % 256) :: (rid / 2 ^ 8 % 256) :: (rid % 256) ::
      1 :: iv :: mt.toNat :: rc :: payload with hchain
    have hgl : get_be_u32 chain 4 = len := by
      rw [hchain, get_be_u32_explicit4, be32_of_be_bytes len hlen]
    have hclen : chain.length = 16 + payload.length := by
      simp [hchain]
      omega
    have htake : chain.take (get_be_u32 chain 4 + 8) = chain := by
      apply List.take_of_length_le
      omega
    have h14 : chain.getD 14 0 = mt.toNat :=
      (getD_explicit _ _ _ _ _ _ _ _ _ _ _ _ _ _ _ _ _).2.2.1
    have hflag : (mt.toNat &&& 0x20 != 0) = false := by
      rw [hmt.2.2.2.1]
      rfl
    have h0 : get_be_u32 chain 0 = mid := by
      rw [hchain, get_be_u32_explicit0, be32_of_be_bytes mid hmid]
    have h8 : get_be_u32 chain 8 = rid := by
      rw [hchain, get_be_u32_explicit8, be32_of_be_bytes rid hrid]
    have h13 : chain.getD 13 0 = iv :=
      (getD_explicit _ _ _ _ _ _ _ _ _ _ _ _ _ _ _ _ _).2.1
    have h15 : chain.getD 15 0 = rc :=
      (getD_explicit _ _ _ _ _ _ _ _ _ _ _ _ _ _ _ _ _).2.2.2
    refine ⟨⟨mt.toNat &&& 0x20 != 0, chain⟩, ?_, rfl, ?_, ?_⟩
    · rw [from_slice_ok_iff]
      refine ⟨by omega, by omega, by omega,
        (getD_explicit _ _ _ _ _ _ _ _ _ _ _ _ _ _ _ _ _).1, ?_, ?_, ?_⟩
      · rw [h14, hmt.2.2.2.1]
        simp
      · rw [h14, hmt.2.2.1, hmt.2.2.2.2]
        rfl
      · rw [htake, h14]
    · simp only [SomeipMsgSlice.to_header, SomeipMsgSlice.message_type,
        SomeipMsgSlice.message_type_raw, SomeipMsgSlice.message_id,
        SomeipMsgSlice.length, SomeipMsgSlice.request_id,
        SomeipMsgSlice.interface_version, SomeipMsgSlice.return_code,
        SomeipMsgSlice.tp_header, hflag]
      rw [h14, hmt.2.2.1, hmt.2.2.2.2, h0, hgl, h8, h13, h15]
      simp
    · have hpl : (⟨mt.toNat &&& 0x20 != 0, chain⟩ : SomeipMsgSlice).payload =
          chain.drop 16 := by
        simp [SomeipMsgSlice.payload, hflag, SOMEIP_HEADER_LENGTH]
      rw [hpl, hchain]
      rfl
  | some tp =>
    obtain ⟨hofflt, hoffmod⟩ := htp tp rfl
    simp only [Option.elim_some] at hplen
    rw [write_raw_explicit_tp]
    set chain := (mid / 2 ^ 24 % 256) :: (mid / 2 ^ 16 % 256) :: (mid / 2 ^ 8 % 256) ::
      (mid % 256) ::
      (len / 2 ^ 24 % 256) :: (len / 2 ^ 16 % 256) :: (len / 2 ^ 8 % 256) :: (len % 256) ::
      (rid / 2 ^ 24 % 256) :: (rid / 2 ^ 16 % 256) :: (rid / 2 ^ 8 % 256) :: (rid % 256) ::
      1 :: iv :: (mt.toNat ||| 0x20) :: rc :: (tp.to_bytes ++ payload) with hchain
    have hgl : get_be_u32 chain 4 = len := by
      rw [hchain, get_be_u32_explicit4, be32_of_be_bytes len hlen]
    have hclen : chain.length = 20 + payload.length := by
      simp [hchain, TpHeader.to_bytes]
      omega
    have htake : chain.take (get_be_u32 chain 4 + 8) = chain := by
      apply List.take_of_length_le
      omega
    have h14 : chain.getD 14 0 = mt.toNat ||| 0x20 :=
      (getD_explicit _ _ _ _ _ _ _ _ _ _ _ _ _ _ _ _ _).2.2.1
    have hflag : ((mt.toNat ||| 0x20) &&& 0x20 != 0) = true := by
      rw [hmt.2.1]
      rfl
    have hdrop16 : chain.drop 16 = tp.to_bytes ++ payload := by
      rw [hchain]
      exact rfl
    have h0 : get_be_u32 chain 0 = mid := by
      rw [hchain, get_be_u32_explicit0, be32_of_be_bytes mid hmid]
    have h8 : get_be_u32 chain 8 = rid := by
      rw [hchain, get_be_u32_explicit8, be32_of_be_bytes rid hrid]
    have h13 : chain.getD 13 0 = iv :=
      (getD_explicit _ _ _ _ _ _ _ _ _ _ _ _ _ _ _ _ _).2.1
    have h15 : chain.getD 15 0 = rc :=
      (getD_explicit _ _ _ _ _ _ _ _ _ _ _ _ _ _ _ _ _).2.2.2
    refine ⟨⟨(mt.toNat ||| 0x20) &&& 0x20 != 0, chain⟩, ?_, rfl, ?_, ?_⟩
    · rw [from_slice_ok_iff]
      refine ⟨by omega, by omega, by omega,
        (getD_explicit _ _ _ _ _ _ _ _ _ _ _ _ _ _ _ _ _).1, ?_, ?_, ?_⟩
      · intro _
        omega
      · rw [h14, hmt.1, hmt.2.2.2.2]
        rfl
      · rw [htake, h14]
    · simp only [SomeipMsgSlice.to_header, SomeipMsgSlice.message_type,
        SomeipMsgSlice.message_type_raw, SomeipMsgSlice.message_id,
        SomeipMsgSlice.length, SomeipMsgSlice.request_id,
        SomeipMsgSlice.interface_version, SomeipMsgSlice.return_code,
        SomeipMsgSlice.tp_header, hflag]
      rw [h14, hmt.1, hmt.2.2.2.2, h0, hgl, h8, h13, h15]
      simp only [SOMEIP_HEADER_LENGTH]
      rw [hdrop16, tp_unchecked_to_bytes tp payload hofflt hoffmod]
      simp
    · have hpl : (⟨(mt.toNat ||| 0x20) &&& 0x20 != 0, chain⟩ : SomeipMsgSlice).payload =
          chain.drop 20 := by
        simp [SomeipMsgSlice.payload, hflag, SOMEIP_HEADER_LENGTH, TP_HEADER_LENGTH]
      rw [hpl, hchain]
      obtain ⟨off, more⟩ := tp
      cases more <;> rfl

/-- Claim C4: writing a SOME/IP header (with or without TP header) and
reading the bytes back yields an equal header, and a slice view over the
written header bytes followed by payload bytes yields the header's field
values and exactly the appended payload bytes. -/
theorem header_write_read_roundtrip (h : SomeipHeader) (payload rest : List Nat)
    (hmid : h.message_id < 2 ^ 32) (hlen : h.length < 2 ^ 32)
    (hrid : h.request_id < 2 ^ 32)
    (hlen8 : SOMEIP_LEN_OFFSET_TO_PAYLOAD ≤ h.length)
    (htp : ∀ tp ∈ h.tp_header, tp.offset < 2 ^ 32 ∧ tp.offset % 16 = 0) :
    SomeipHeader.read (h.write_raw ++ rest) = .ok (h, rest) ∧
    (h.length = SOMEIP_LEN_OFFSET_TO_PAYLOAD +
        (h.tp_header.elim 0 fun _ => TP_HEADER_LENGTH) + payload.length →
      ∃ v, SomeipMsgSlice.from_slice (h.write_raw ++ payload) = .ok v ∧
        v.slice = h.write_raw ++ payload ∧ v.to_header = some h ∧ v.payload = payload) :=
  ⟨read_write_raw h rest hmid hlen hrid hlen8 htp,
   fun hplen => from_slice_write_raw h payload hmid hlen hrid htp hplen⟩

theorem header_write_read_roundtrip_witness :
    SomeipHeader.read
        (SomeipHeader.write_raw
          { message_id := 0x12348234, length := 16, request_id := 1,
            interface_version := 1, message_type := .Notification,
            return_code := 0, tp_header := some ⟨16, true⟩ } ++ [7, 7]) =
      .ok ({ message_id := 0x12348234, length := 16, request_id := 1,
             interface_version := 1, message_type := .Notification,
             return_code := 0, tp_header := some ⟨16, true⟩ }, [7, 7]) :=
  (header_write_read_roundtrip
    { message_id := 0x12348234, length := 16, request_id := 1,
      interface_version := 1, message_type := .Notification,
      return_code := 0, tp_header := some ⟨16, true⟩ }
    [1, 2, 3, 4] [7, 7] (by decide) (by decide) (by decide) (by decide)
    (by intro tp htp
        simp only [Option.mem_def, Option.some.injEq] at htp
        subst htp
        exact ⟨by decide, by decide⟩)).1

/-! ## Claims about `TpBuf::consume_tp` -/

theorem consume_tp_write_fst (buf : TpBuf) (s : SomeipMsgSlice) :
    (buf.consume_tp_write s).1 = none := rfl

/-- `consume_tp` either rejects without touching the buffer or succeeds. -/
theorem consume_tp_cases (buf : TpBuf) (s : SomeipMsgSlice) :
    (buf.consume_tp s).2 = buf ∨ (buf.consume_tp s).1 = none := by
  simp only [TpBuf.consume_tp]
  repeat' split
  all_goals first
    | (left; rfl)
    | (right; exact consume_tp_write_fst buf s)

/-- Claim C6: on a buffer with a recorded final end, a segment passing the
size and alignment checks is rejected with
`ConflictingEnd{previous_end, conflicting_end}` exactly when its end
(`offset + payload.len()`) exceeds the previous final end, or the segment
is itself final and its end differs from the previous final end. -/
theorem conflicting_end_characterization (buf : TpBuf) (s : SomeipMsgSlice)
    (previous_end : Nat) (hend : buf.endVal = some previous_end)
    (hsize : ¬(buf.config.tp_max_payload_len < s.tp_header_unwrap.offset ∨
      buf.config.tp_max_payload_len - s.tp_header_unwrap.offset < s.payload.length))
    (halign : ¬(s.tp_header_unwrap.more_segment ∧ 0 ≠ s.payload.length &&& 0b1111)) :
    (buf.consume_tp s).1 =
        some (.ConflictingEnd previous_end
          (s.tp_header_unwrap.offset + s.payload.length)) ↔
      (previous_end < s.tp_header_unwrap.offset + s.payload.length ∨
        (s.tp_header_unwrap.more_segment = false ∧
          s.tp_header_unwrap.offset + s.payload.length ≠ previous_end)) := by
  unfold TpBuf.consume_tp
  rw [if_neg hsize, if_neg halign, hend]
  show ((if previous_end < s.tp_header_unwrap.offset + s.payload.length ∨
      (s.tp_header_unwrap.more_segment = false ∧
        s.tp_header_unwrap.offset + s.payload.length ≠ previous_end) then
      ((some (.ConflictingEnd previous_end
        (s.tp_header_unwrap.offset + s.payload.length)), buf) :
        Option TpReassembleError × TpBuf)
    else buf.consume_tp_write s)).1 =
      some (.ConflictingEnd previous_end
        (s.tp_header_unwrap.offset + s.payload.length)) ↔ _
  by_cases hc : previous_end < s.tp_header_unwrap.offset + s.payload.length ∨
      (s.tp_header_unwrap.more_segment = false ∧
        s.tp_header_unwrap.offset + s.payload.length ≠ previous_end)
  · rw [if_pos hc]
    simp [hc]
  · rw [if_neg hc]
    rw [consume_tp_write_fst]
    simp [hc]

theorem conflicting_end_characterization_witness :
    (TpBuf.consume_tp
        { data := List.replicate 64 0, sections := [⟨32, 48⟩],
          endVal := some 48, config := ⟨1024, 2048⟩ }
        ⟨true, List.replicate 16 0 ++ [0, 0, 0, 0x31] ++ List.replicate 16 7⟩).1 =
        some (.ConflictingEnd 48
          ((⟨true, List.replicate 16 0 ++ [0, 0, 0, 0x31] ++ List.replicate 16 7⟩ :
            SomeipMsgSlice).tp_header_unwrap.offset +
           (⟨true, List.replicate 16 0 ++ [0, 0, 0, 0x31] ++ List.replicate 16 7⟩ :
            SomeipMsgSlice).payload.length)) ↔
      (48 < (⟨true, List.replicate 16 0 ++ [0, 0, 0, 0x31] ++ List.replicate 16 7⟩ :
          SomeipMsgSlice).tp_header_unwrap.offset +
        (⟨true, List.replicate 16 0 ++ [0, 0, 0, 0x31] ++ List.replicate 16 7⟩ :
          SomeipMsgSlice).payload.length ∨
       ((⟨true, List.replicate 16 0 ++ [0, 0, 0, 0x31] ++ List.replicate 16 7⟩ :
          SomeipMsgSlice).tp_header_unwrap.more_segment = false ∧
        (⟨true, List.replicate 16 0 ++ [0, 0, 0, 0x31] ++ List.replicate 16 7⟩ :
          SomeipMsgSlice).tp_header_unwrap.offset +
        (⟨true, List.replicate 16 0 ++ [0, 0, 0, 0x31] ++ List.replicate 16 7⟩ :
          SomeipMsgSlice).payload.length ≠ 48)) :=
  conflicting_end_characterization
    { data := List.replicate 64 0, sections := [⟨32, 48⟩],
      endVal := some 48, config := ⟨1024, 2048⟩ }
    ⟨true, List.replicate 16 0 ++ [0, 0, 0, 0x31] ++ List.replicate 16 7⟩
    48 (by decide) (by decide) (by decide)

/-- Claim C9: whenever `consume_tp` returns an error, the buffer is left
exactly as it was: every error return in the source happens before any
mutation of `data`, `sections` or `end`. -/
theorem consume_tp_error_no_mutation (buf : TpBuf) (s : SomeipMsgSlice)
    (e : TpReassembleError) (herr : (buf.consume_tp s).1 = some e) :
    (buf.consume_tp s).2 = buf := by
  rcases consume_tp_cases buf s with h | h
  · exact h
  · rw [herr] at h
    simp at h

/-- Claim C5: `TpPool::consume` returns a non-TP view unchanged
immediately; for a TP view whose stream's buffer becomes complete after
consuming it, it removes the `(channel_id, request_id)` entry from the
active map, pushes the buffer onto the free list and returns `Some` of
the view finalized from that free list slot; otherwise it returns `None`
(covering both the known-stream and the new-stream arm). -/
theorem tp_pool_consume_spec {C T : Type} [DecidableEq C] (pool : TpPool C T)
    (id : C) (ts : T) (s : SomeipMsgSlice) :
    (s.is_tp = false → pool.consume id ts s = some (.ok (some s), pool)) ∧
    (∀ buf ts0 buf' bf v, s.is_tp = true →
      lookupEntry pool.active (id, s.request_id) = some (buf, ts0) →
      buf.consume_tp s = (none, buf') → buf'.is_complete = true →
      buf'.try_finalize = some (bf, v) →
      pool.consume id ts s = some (.ok (some v),
        { pool with active := removeEntry pool.active (id, s.request_id),
                    finished := pool.finished ++ [bf] })) ∧
    (∀ buf ts0 buf', s.is_tp = true →
      lookupEntry pool.active (id, s.request_id) = some (buf, ts0) →
      buf.consume_tp s = (none, buf') → buf'.is_complete = false →
      pool.consume id ts s = some (.ok none,
        { pool with
            active := updateEntry pool.active (id, s.request_id) (buf', ts) })) ∧
    (∀ buf' bf v, s.is_tp = true →
      lookupEntry pool.active (id, s.request_id) = none →
      pool.popBuf.1.consume_tp s = (none, buf') → buf'.is_complete = true →
      buf'.try_finalize = some (bf, v) →
      pool.consume id ts s = some (.ok (some v),
        { pool with finished := pool.popBuf.2 ++ [bf] })) ∧
    (∀ buf', s.is_tp = true →
      lookupEntry pool.active (id, s.request_id) = none →
      pool.popBuf.1.consume_tp s = (none, buf') → buf'.is_complete = false →
      pool.consume id ts s = some (.ok none,
        { pool with active := pool.active ++ [((id, s.request_id), (buf', ts))],
                    finished := pool.popBuf.2 })) := by
  refine ⟨fun htp => ?_,
    fun buf ts0 buf' bf v htp hlook hcons hcomp hfin => ?_,
    fun buf ts0 buf' htp hlook hcons hcomp => ?_,
    fun buf' bf v htp hlook hcons hcomp hfin => ?_,
    fun buf' htp hlook hcons hcomp => ?_⟩
  · simp [TpPool.consume, htp]
  · simp [TpPool.consume, htp, hlook, hcons, hcomp, hfin]
  · simp [TpPool.consume, htp, hlook, hcons, hcomp]
  · simp [TpPool.consume, htp, hlook, hcons, hcomp, hfin]
  · simp [TpPool.consume, htp, hlook, hcons, hcomp]

/-! ## List surgery lemmas for the reassembly proof -/

theorem listWrite_length (l src : List Nat) (pos : Nat)
    (h : pos + src.length ≤ l.length) :
    (listWrite l pos src).length = l.length := by
  simp [listWrite]
  omega

theorem listWrite_getD_lt (l src : List Nat) (pos i d : Nat) (hi : i < pos)
    (hp : pos ≤ l.length) :
    (listWrite l pos src).getD i d = l.getD i d := by
  simp only [listWrite, List.getD_eq_getElem?_getD, List.append_assoc]
  rw [List.getElem?_append_left (by simp; omega), List.getElem?_take]
  simp [hi]

theorem listWrite_getD_mid (l src : List Nat) (pos i d : Nat) (hi : i < src.length)
    (hp : pos ≤ l.length) :
    (listWrite l pos src).getD (pos + i) d = src.getD i d := by
  simp only [listWrite, List.getD_eq_getElem?_getD, List.append_assoc]
  rw [List.getElem?_append_right (by rw [List.length_take]; omega)]
  rw [show pos + i - (l.take pos).length = i by rw [List.length_take]; omega]
  rw [List.getElem?_append_left hi]

theorem listWrite_getD_ge (l src : List Nat) (pos i d : Nat)
    (hi : pos + src.length ≤ i) (hp : pos ≤ l.length) :
    (listWrite l pos src).getD i d = l.getD i d := by
  simp only [listWrite, List.getD_eq_getElem?_getD, List.append_assoc]
  rw [List.getElem?_append_right (by rw [List.length_take]; omega)]
  rw [List.getElem?_append_right (by rw [List.length_take]; omega)]
  rw [List.getElem?_drop]
  congr 2
  rw [List.length_take]
  omega

theorem getD_append_left (l1 l2 : List Nat) (i d : Nat) (h : i < l1.length) :
    (l1 ++ l2).getD i d = l1.getD i d := by
  simp only [List.getD_eq_getElem?_getD]
  rw [List.getElem?_append_left h]

theorem maxEnd_append (c : List Seg) (s : Seg) :
    maxEnd (c ++ [s]) = max (maxEnd c) (s.off + s.len) := by
  induction c with
  | nil => simp [maxEnd]
  | cons a c ih =>
    simp only [maxEnd, List.foldr_cons, List.cons_append] at ih ⊢
    omega

theorem le_maxEnd (c : List Seg) (s : Seg) (hs : s ∈ c) :
    s.off + s.len ≤ maxEnd c := by
  induction c with
  | nil => simp at hs
  | cons a c ih =>
    rcases List.mem_cons.mp hs with h | h
    · subst h
      simp only [maxEnd, List.foldr_cons]
      omega
    · have := ih h
      simp only [maxEnd, List.foldr_cons] at this ⊢
      omega

/-! ## `TpRange.merge` characterization -/

theorem merge_pos (a b : TpRange) (hc : rangesConnected a b)
    (ha : a.start ≤ a.stop) (hb : b.start ≤ b.stop) :
    a.merge b = some ⟨min a.start b.start, max a.stop b.stop⟩ := by
  unfold TpRange.merge
  rw [if_pos]
  unfold TpRange.is_value_connected
  simp only [Bool.or_eq_true, Bool.and_eq_true, decide_eq_true_eq, ge_iff_le]
  unfold rangesConnected at hc
  omega

theorem merge_neg (a b : TpRange) (hnc : ¬rangesConnected a b)
    (ha : a.start ≤ a.stop) (hb : b.start ≤ b.stop) :
    a.merge b = none := by
  unfold TpRange.merge
  rw [if_neg]
  unfold TpRange.is_value_connected
  simp only [Bool.or_eq_true, Bool.and_eq_true, decide_eq_true_eq, ge_iff_le]
  unfold rangesConnected at hnc
  omega

theorem rangesConnected_symm (a b : TpRange) (h : rangesConnected a b) :
    rangesConnected b a := by
  unfold rangesConnected at h ⊢
  omega

theorem connected_of_point (a b : TpRange) (p : Nat)
    (hpa : a.start ≤ p ∧ p ≤ a.stop) (hpb : b.start ≤ p ∧ p ≤ b.stop) :
    rangesConnected a b := by
  unfold rangesConnected
  omega

theorem point_of_connected (a b : TpRange) (h : rangesConnected a b)
    (ha : a.start ≤ a.stop) (hb : b.start ≤ b.stop) :
    ∃ p, (a.start ≤ p ∧ p ≤ a.stop) ∧ (b.start ≤ p ∧ p ≤ b.stop) := by
  unfold rangesConnected at h
  exact ⟨max a.start b.start, ⟨by omega, by omega⟩, ⟨by omega, by omega⟩⟩

/-- Full specification of the `retain`-style merge loop: on pairwise
unconnected well-formed sections it yields a well-formed merged section
and kept sections that are a subset of the input, pairwise unconnected,
unconnected to the merged section, with the same contents (as a set of
covered points) as the input plus the new section, and the merged
section's closed span is covered by the closed spans of the inputs. -/
theorem mergeInto_spec (sections : List TpRange) : ∀ ns : TpRange,
    ns.start ≤ ns.stop →
    (∀ r ∈ sections, r.start < r.stop) →
    sections.Pairwise (fun a b => ¬rangesConnected a b) →
    (mergeInto ns sections).1.start ≤ (mergeInto ns sections).1.stop ∧
    (∀ r ∈ (mergeInto ns sections).2, r ∈ sections) ∧
    (mergeInto ns sections).2.Pairwise (fun a b => ¬rangesConnected a b) ∧
    (∀ r ∈ (mergeInto ns sections).2, ¬rangesConnected r (mergeInto ns sections).1) ∧
    (∀ p, ((mergeInto ns sections).1.start ≤ p ∧ p < (mergeInto ns sections).1.stop) ∨
        (∃ r ∈ (mergeInto ns sections).2, r.start ≤ p ∧ p < r.stop) ↔
      (ns.start ≤ p ∧ p < ns.stop) ∨ (∃ r ∈ sections, r.start ≤ p ∧ p < r.stop)) ∧
    (∀ p, (mergeInto ns sections).1.start ≤ p ∧ p ≤ (mergeInto ns sections).1.stop →
      (ns.start ≤ p ∧ p ≤ ns.stop) ∨ (∃ r ∈ sections, r.start ≤ p ∧ p ≤ r.stop)) := by
  induction sections with
  | nil =>
    intro ns hns _ _
    exact ⟨hns, fun r hr => hr, List.Pairwise.nil,
      fun r hr => absurd hr (List.not_mem_nil r), fun p => Iff.rfl,
      fun p h => Or.inl h⟩
  | cons s rest ih =>
    intro ns hns hval hpw
    have hsval : s.start < s.stop := hval s (List.mem_cons_self s rest)
    have hrestval : ∀ r ∈ rest, r.start < r.stop :=
      fun r hr => hval r (List.mem_cons_of_mem s hr)
    have hpwc := List.pairwise_cons.mp hpw
    cases hm : ns.merge s with
    | some m =>
      have hconn : rangesConnected ns s := by
        by_contra hc
        rw [merge_neg ns s hc hns (le_of_lt hsval)] at hm
        cases hm
      have hm_eq : m = ⟨min ns.start s.start, max ns.stop s.stop⟩ := by
        rw [merge_pos ns s hconn hns (le_of_lt hsval)] at hm
        exact (Option.some.inj hm).symm
      subst hm_eq
      have hmval : (TpRange.mk (min ns.start s.start) (max ns.stop s.stop)).start ≤
          (TpRange.mk (min ns.start s.start) (max ns.stop s.stop)).stop := by
        simp
        omega
      obtain ⟨ih1, ih2, ih3, ih4, ih5, ih6⟩ :=
        ih ⟨min ns.start s.start, max ns.stop s.stop⟩ hmval hrestval hpwc.2
      have hred : mergeInto ns (s :: rest) =
          mergeInto ⟨min ns.start s.start, max ns.stop s.stop⟩ rest := by
        simp only [mergeInto, hm]
      rw [hred]
      unfold rangesConnected at hconn
      refine ⟨ih1, fun r hr => List.mem_cons_of_mem s (ih2 r hr), ih3, ih4,
        fun p => ?_, fun p hp => ?_⟩
      · rw [ih5 p]
        simp only [List.mem_cons, exists_eq_or_imp]
        constructor
        · rintro (h | h)
          · have hmm : min ns.start s.start ≤ p ∧ p < max ns.stop s.stop := h
            rcases (by omega :
              (ns.start ≤ p ∧ p < ns.stop) ∨ (s.start ≤ p ∧ p < s.stop)) with h' | h'
            · exact Or.inl h'
            · exact Or.inr (Or.inl h')
          · exact Or.inr (Or.inr h)
        · rintro (h | h | h)
          · exact Or.inl (show min ns.start s.start ≤ p ∧ p < max ns.stop s.stop by
              omega)
          · exact Or.inl (show min ns.start s.start ≤ p ∧ p < max ns.stop s.stop by
              omega)
          · exact Or.inr h
      · rcases ih6 p hp with h | h
        · have hmm : min ns.start s.start ≤ p ∧ p ≤ max ns.stop s.stop := h
          rcases (by omega :
            (ns.start ≤ p ∧ p ≤ ns.stop) ∨ (s.start ≤ p ∧ p ≤ s.stop)) with h' | h'
          · exact Or.inl h'
          · exact Or.inr ⟨s, List.mem_cons_self s rest, h'⟩
        · obtain ⟨r, hr, hrp⟩ := h
          exact Or.inr ⟨r, List.mem_cons_of_mem s hr, hrp⟩
    | none =>
      have hnconn : ¬rangesConnected ns s := by
        intro hc
        rw [merge_pos ns s hc hns (le_of_lt hsval)] at hm
        cases hm
      obtain ⟨ih1, ih2, ih3, ih4, ih5, ih6⟩ := ih ns hns hrestval hpwc.2
      rcases hres : mergeInto ns rest with ⟨ns', kept'⟩
      rw [hres] at ih1 ih2 ih3 ih4 ih5 ih6
      simp only at ih1 ih2 ih3 ih4 ih5 ih6
      have hred : mergeInto ns (s :: rest) = (ns', s :: kept') := by
        simp only [mergeInto, hm, hres]
      rw [hred]
      simp only
      refine ⟨ih1, ?_, ?_, ?_, fun p => ?_, fun p hp => (ih6 p hp).imp id
        (fun h => by
          obtain ⟨r, hr, hrp⟩ := h
          exact ⟨r, List.mem_cons_of_mem s hr, hrp⟩)⟩
      · intro r hr
        rcases List.mem_cons.mp hr with h | h
        · exact h ▸ List.mem_cons_self s rest
        · exact List.mem_cons_of_mem s (ih2 r h)
      · rw [List.pairwise_cons]
        exact ⟨fun r hr => hpwc.1 r (ih2 r hr), ih3⟩
      · intro r hr
        rcases List.mem_cons.mp hr with h | h
        · intro hc
          rw [h] at hc
          obtain ⟨p, hpr, hpn⟩ := point_of_connected s ns' hc (le_of_lt hsval) ih1
          rcases ih6 p hpn with h' | h'
          · exact hnconn (rangesConnected_symm _ _ (connected_of_point s ns p hpr h'))
          · obtain ⟨r2, hr2, hpr2⟩ := h'
            exact hpwc.1 r2 hr2 (connected_of_point s r2 p hpr hpr2)
        · exact ih4 r h
      · have h5 := ih5 p
        simp only [List.mem_cons, exists_eq_or_imp] at h5 ⊢
        constructor
        · rintro (h | h | h)
          · rcases h5.mp (Or.inl h) with h' | h'
            · exact Or.inl h'
            · exact Or.inr (Or.inr h')
          · exact Or.inr (Or.inl h)
          · rcases h5.mp (Or.inr h) with h' | h'
            · exact Or.inl h'
            · exact Or.inr (Or.inr h')
        · rintro (h | h | h)
          · rcases h5.mpr (Or.inl h) with h' | h'
            · exact Or.inl h'
            · exact Or.inr (Or.inr h')
          · exact Or.inr (Or.inl h)
          · rcases h5.mpr (Or.inr h) with h' | h'
            · exact Or.inl h'
            · exact Or.inr (Or.inr h')

theorem consume_tp_error_no_mutation_witness :
    (TpBuf.consume_tp (TpBuf.new ⟨1024, 2048⟩)
        ⟨true, List.replicate 19 0 ++ [1] ++ List.replicate 15 7⟩).2 =
      TpBuf.new ⟨1024, 2048⟩ :=
  consume_tp_error_no_mutation (TpBuf.new ⟨1024, 2048⟩)
    ⟨true, List.replicate 19 0 ++ [1] ++ List.replicate 15 7⟩
    (.UnalignedTpPayloadLen 0 15) (by decide)

/-! ## Further reassembly helper lemmas -/

/-- The merged section always contains the section it grew from. -/
theorem mergeInto_hull (sections : List TpRange) : ∀ ns : TpRange,
    (mergeInto ns sections).1.start ≤ ns.start ∧
    ns.stop ≤ (mergeInto ns sections).1.stop := by
  induction sections with
  | nil => intro ns; exact ⟨le_refl _, le_refl _⟩
  | cons s rest ih =>
    intro ns
    cases hm : ns.merge s with
    | some m =>
      have hme : m = ⟨min ns.start s.start, max ns.stop s.stop⟩ := by
        unfold TpRange.merge at hm
        split at hm
        · exact (Option.some.inj hm).symm
        · cases hm
      have hred : mergeInto ns (s :: rest) = mergeInto m rest := by
        simp only [mergeInto, hm]
      rw [hred]
      obtain ⟨h1, h2⟩ := ih m
      refine ⟨le_trans h1 ?_, le_trans ?_ h2⟩
      · rw [hme]
        exact min_le_left _ _
      · rw [hme]
        exact le_max_left _ _
    | none =>
      rcases hres : mergeInto ns rest with ⟨ns', kept'⟩
      have hred : mergeInto ns (s :: rest) = (ns', s :: kept') := by
        simp only [mergeInto, hm, hres]
      rw [hred]
      have h := ih ns
      rw [hres] at h
      exact h

theorem pairwise_unconn_forall (L : List TpRange)
    (h : L.Pairwise (fun a b => ¬rangesConnected a b)) :
    ∀ a ∈ L, ∀ b ∈ L, a ≠ b → ¬rangesConnected a b := by
  induction L with
  | nil =>
    intro a ha
    simp at ha
  | cons x L ih =>
    have hpc := List.pairwise_cons.mp h
    intro a ha b hb hne
    rcases List.mem_cons.mp ha with rfl | ha'
    · rcases List.mem_cons.mp hb with rfl | hb'
      · exact absurd rfl hne
      · exact hpc.1 b hb'
    · rcases List.mem_cons.mp hb with rfl | hb'
      · exact fun hc => hpc.1 a ha' (rangesConnected_symm _ _ hc)
      · exact ih hpc.2 a ha' b hb' hne

/-- A pairwise unconnected family of non-empty ranges whose half-open
union is exactly `[0, E)` is the single range `[0, E)`. -/
theorem sections_complete (L : List TpRange) (E : Nat) (hE : 0 < E)
    (hv : ∀ r ∈ L, r.start < r.stop)
    (hpw : L.Pairwise (fun a b => ¬rangesConnected a b))
    (hcov : ∀ p, (∃ r ∈ L, r.start ≤ p ∧ p < r.stop) ↔ p < E) :
    L = [⟨0, E⟩] := by
  have hsym := pairwise_unconn_forall L hpw
  have hall : ∀ r ∈ L, r = ⟨0, E⟩ := by
    intro r hr
    have hr1 : r.start < r.stop := hv r hr
    have hrs : r.start < E := (hcov r.start).mp ⟨r, hr, le_refl _, hr1⟩
    have hstart : r.start = 0 := by
      by_contra h0
      have hp : r.start - 1 < E := by omega
      obtain ⟨r2, hr2, hp2⟩ := (hcov (r.start - 1)).mpr hp
      have hne : r2 ≠ r := by
        intro he
        subst he
        omega
      exact absurd ⟨by omega, by omega⟩ (hsym r2 hr2 r hr hne)
    have hstop : r.stop = E := by
      rcases Nat.lt_trichotomy r.stop E with h | h | h
      · obtain ⟨r2, hr2, hp2⟩ := (hcov r.stop).mpr h
        have hne : r2 ≠ r := by
          intro he
          subst he
          omega
        exact absurd ⟨by omega, by omega⟩ (hsym r2 hr2 r hr hne)
      · exact h
      · have hEE : E < E := (hcov E).mp ⟨r, hr, by omega, by omega⟩
        omega
    obtain ⟨a, b⟩ := r
    simp only at hstart hstop
    rw [hstart, hstop]
  obtain ⟨r0, hr0, _⟩ := (hcov 0).mpr hE
  cases L with
  | nil => simp at hr0
  | cons a L' =>
    have ha : a = ⟨0, E⟩ := hall a (List.mem_cons_self a L')
    cases L' with
    | nil => rw [ha]
    | cons b L'' =>
      have hb : b = ⟨0, E⟩ := hall b (by simp)
      have hab := (List.pairwise_cons.mp hpw).1 b (List.mem_cons_self b L'')
      rw [ha, hb] at hab
      exact absurd ⟨Nat.zero_le E, Nat.zero_le E⟩ hab

theorem and_fifteen (n : Nat) : n &&& 15 = n % 16 := by
  have h := Nat.and_pow_two_sub_one_eq_mod n 4
  norm_num at h
  exact h

theorem getD_drop (l : List Nat) (n i d : Nat) :
    (l.drop n).getD i d = l.getD (n + i) d := by
  simp [List.getD_eq_getElem?_getD, List.getElem?_drop]

theorem window_getD (P : List Nat) (off len j : Nat) (hj : j < len) :
    ((P.drop off).take len).getD j 0 = P.getD (off + j) 0 := by
  rw [getD_take_of_lt _ _ _ _ hj, getD_drop]

theorem window_length (P : List Nat) (off len : Nat) (h : off + len ≤ P.length) :
    ((P.drop off).take len).length = len := by
  rw [List.length_take, List.length_drop]
  omega

theorem base_to_bytes_length (h : SomeipHeader) :
    h.base_to_bytes.length = SOMEIP_HEADER_LENGTH := by
  obtain ⟨mid, len, rid, iv, mt, rc, tph⟩ := h
  cases tph <;> rfl

/-- Masking the TP flag out of byte 14 of the written base header gives
the base header bytes without a TP header. -/
theorem base_to_bytes_tp_mask (mid len rid iv rc : Nat) (mt : MessageType)
    (tp : TpHeader) :
    listWrite (SomeipHeader.base_to_bytes
      { message_id := mid, length := len, request_id := rid,
        interface_version := iv, message_type := mt, return_code := rc,
        tp_header := some tp }) (4 * 3 + 2)
      [(mt.toNat ||| SOMEIP_HEADER_MESSAGE_TYPE_TP_FLAG) &&& 0xDF] =
    SomeipHeader.base_to_bytes
      { message_id := mid, length := len, request_id := rid,
        interface_version := iv, message_type := mt, return_code := rc,
        tp_header := none } := by
  rw [show (mt.toNat ||| SOMEIP_HEADER_MESSAGE_TYPE_TP_FLAG) &&& 0xDF = mt.toNat from
    (mt_byte_facts mt).1]
  rfl

/-- Rewriting the length field of the written base header. -/
theorem base_to_bytes_set_length (mid L L2 rid iv rc : Nat) (mt : MessageType) :
    listWrite (SomeipHeader.base_to_bytes
      { message_id := mid, length := L, request_id := rid,
        interface_version := iv, message_type := mt, return_code := rc,
        tp_header := none }) 4 (u32_be_bytes L2) =
    SomeipHeader.base_to_bytes
      { message_id := mid, length := L2, request_id := rid,
        interface_version := iv, message_type := mt, return_code := rc,
        tp_header := none } := rfl

theorem listWrite_append_inner (a t src : List Nat) (pos : Nat)
    (h : pos + src.length ≤ a.length) :
    listWrite (a ++ t) pos src = listWrite a pos src ++ t := by
  unfold listWrite
  rw [List.take_append_eq_append_take, List.drop_append_eq_append_drop,
    show pos - a.length = 0 from by omega,
    show pos + src.length - a.length = 0 from by omega]
  simp [List.append_assoc]

theorem listWrite_take_of_le (l src : List Nat) (pos k : Nat) (hk : k ≤ pos)
    (hp : pos ≤ l.length) :
    (listWrite l pos src).take k = l.take k := by
  unfold listWrite
  rw [List.append_assoc, List.take_append_eq_append_take, List.length_take,
    show k - min pos l.length = 0 from by omega]
  simp [List.take_take, Nat.min_eq_left hk]

theorem getD_append_right (a t : List Nat) (i d : Nat) (h : a.length ≤ i) :
    (a ++ t).getD i d = t.getD (i - a.length) d := by
  simp only [List.getD_eq_getElem?_getD]
  rw [List.getElem?_append_right h]

theorem grow_length (l : List Nat) (n : Nat) :
    (if l.length < n then l ++ List.replicate (n - l.length) 0 else l).length =
      max l.length n := by
  split <;> simp <;> omega

theorem grow_getD (l : List Nat) (n i d : Nat) (hi : i < l.length) :
    (if l.length < n then l ++ List.replicate (n - l.length) 0 else l).getD i d =
      l.getD i d := by
  split
  · exact getD_append_left _ _ _ _ hi
  · rfl

theorem grow_take (l : List Nat) (n k : Nat) (hk : k ≤ l.length) :
    (if l.length < n then l ++ List.replicate (n - l.length) 0 else l).take k =
      l.take k := by
  split
  · rw [List.take_append_of_le_length hk]
  · rfl

theorem maxEnd_le (c : List Seg) (E : Nat) (h : ∀ t ∈ c, t.off + t.len ≤ E) :
    maxEnd c ≤ E := by
  induction c with
  | nil => simp [maxEnd]
  | cons a c ih =>
    have ha := h a (List.mem_cons_self a c)
    have hc := ih fun t ht => h t (List.mem_cons_of_mem a ht)
    simp only [maxEnd, List.foldr_cons] at hc ⊢
    omega

theorem list_eq_of_getD (l1 l2 : List Nat) (hlen : l1.length = l2.length)
    (h : ∀ i < l1.length, l1.getD i 0 = l2.getD i 0) : l1 = l2 := by
  apply List.ext_getElem hlen
  intro i h1 h2
  have hi := h i h1
  rwa [List.getD_eq_getElem l1 0 h1, List.getD_eq_getElem l2 0 h2] at hi

/-- Computational facts about the wire view of one TP segment. -/
theorem mkTpSegment_facts (mid rid iv rc : Nat) (mt : MessageType) (P : List Nat)
    (s : Seg) (more : Bool) (hoff16 : s.off % 16 = 0) (hofflt : s.off < 2 ^ 32) :
    (mkTpSegment mid rid iv rc mt P s more).tp = true ∧
    (mkTpSegment mid rid iv rc mt P s more).tp_header_unwrap = ⟨s.off, more⟩ ∧
    (mkTpSegment mid rid iv rc mt P s more).payload = (P.drop s.off).take s.len ∧
    (mkTpSegment mid rid iv rc mt P s more).slice.take SOMEIP_HEADER_LENGTH =
      SomeipHeader.base_to_bytes
        { message_id := mid,
          length := SOMEIP_LEN_OFFSET_TO_PAYLOAD + TP_HEADER_LENGTH + s.len,
          request_id := rid, interface_version := iv, message_type := mt,
          return_code := rc, tp_header := some ⟨s.off, more⟩ } := by
  have hw : (mkTpSegment mid rid iv rc mt P s more).slice =
      SomeipHeader.base_to_bytes
        { message_id := mid,
          length := SOMEIP_LEN_OFFSET_TO_PAYLOAD + TP_HEADER_LENGTH + s.len,
          request_id := rid, interface_version := iv, message_type := mt,
          return_code := rc, tp_header := some ⟨s.off, more⟩ } ++
      (TpHeader.to_bytes ⟨s.off, more⟩ ++ (P.drop s.off).take s.len) := by
    show SomeipHeader.write_raw _ ++ _ = _
    simp [SomeipHeader.write_raw, List.append_assoc]
  have hb16 := base_to_bytes_length
    { message_id := mid,
      length := SOMEIP_LEN_OFFSET_TO_PAYLOAD + TP_HEADER_LENGTH + s.len,
      request_id := rid, interface_version := iv, message_type := mt,
      return_code := rc, tp_header := some ⟨s.off, more⟩ }
  have hdrop : (mkTpSegment mid rid iv rc mt P s more).slice.drop SOMEIP_HEADER_LENGTH =
      TpHeader.to_bytes ⟨s.off, more⟩ ++ (P.drop s.off).take s.len := by
    rw [hw, List.drop_left' hb16]
  refine ⟨rfl, ?_, ?_, ?_⟩
  · show TpHeader.from_slice_unchecked
      ((mkTpSegment mid rid iv rc mt P s more).slice.drop SOMEIP_HEADER_LENGTH) = _
    rw [hdrop]
    exact tp_unchecked_to_bytes ⟨s.off, more⟩ _ hofflt hoff16
  · show (mkTpSegment mid rid iv rc mt P s more).slice.drop
      (SOMEIP_HEADER_LENGTH + TP_HEADER_LENGTH) = _
    rw [hw, ← List.append_assoc]
    refine List.drop_left' ?_
    rw [List.length_append, hb16]
    rfl
  · rw [hw, List.take_left' hb16]

/-- `consume_tp_write` on a produced segment view, with the slice-level
reads evaluated. -/
theorem consume_tp_write_mk (buf : TpBuf) (mid rid iv rc : Nat) (mt : MessageType)
    (P : List Nat) (s : Seg) (more : Bool)
    (hoff16 : s.off % 16 = 0) (hofflt : s.off < 2 ^ 32)
    (hsP : s.off + s.len ≤ P.length) :
    buf.consume_tp_write (mkTpSegment mid rid iv rc mt P s more) =
      (none,
        { buf with
          data := listWrite
            (if s.off = 0 then
              SomeipHeader.base_to_bytes
                { message_id := mid,
                  length := SOMEIP_LEN_OFFSET_TO_PAYLOAD + TP_HEADER_LENGTH + s.len,
                  request_id := rid, interface_version := iv, message_type := mt,
                  return_code := rc, tp_header := none } ++
                (if buf.data.length < SOMEIP_HEADER_LENGTH + s.off + s.len then
                  buf.data ++ List.replicate
                    (SOMEIP_HEADER_LENGTH + s.off + s.len - buf.data.length) 0
                else buf.data).drop SOMEIP_HEADER_LENGTH
            else
              (if buf.data.length < SOMEIP_HEADER_LENGTH + s.off + s.len then
                buf.data ++ List.replicate
                  (SOMEIP_HEADER_LENGTH + s.off + s.len - buf.data.length) 0
              else buf.data))
            (SOMEIP_HEADER_LENGTH + s.off) ((P.drop s.off).take s.len),
          sections := (mergeInto ⟨s.off, s.off + s.len⟩ buf.sections).2 ++
            [(mergeInto ⟨s.off, s.off + s.len⟩ buf.sections).1],
          endVal := if more = false then some (s.off + s.len) else buf.endVal }) := by
  obtain ⟨htp, hth, hpl, ht16⟩ := mkTpSegment_facts mid rid iv rc mt P s more hoff16 hofflt
  have hoff_eq : (mkTpSegment mid rid iv rc mt P s more).tp_header_unwrap.offset =
      s.off := by rw [hth]
  have hmore_eq :
      (mkTpSegment mid rid iv rc mt P s more).tp_header_unwrap.more_segment = more := by
    rw [hth]
  simp only [TpBuf.consume_tp_write]
  rw [hoff_eq, hmore_eq, hpl, window_length P s.off s.len hsP, ht16]
  generalize (if buf.data.length < SOMEIP_HEADER_LENGTH + s.off + s.len then
      buf.data ++ List.replicate (SOMEIP_HEADER_LENGTH + s.off + s.len - buf.data.length) 0
    else buf.data) = g
  by_cases hz : s.off = 0
  · simp only [if_pos hz]
    have h1 : listWrite g 0 (SomeipHeader.base_to_bytes
        { message_id := mid,
          length := SOMEIP_LEN_OFFSET_TO_PAYLOAD + TP_HEADER_LENGTH + s.len,
          request_id := rid, interface_version := iv, message_type := mt,
          return_code := rc, tp_header := some ⟨s.off, more⟩ }) =
        SomeipHeader.base_to_bytes
          { message_id := mid,
            length := SOMEIP_LEN_OFFSET_TO_PAYLOAD + TP_HEADER_LENGTH + s.len,
            request_id := rid, interface_version := iv, message_type := mt,
            return_code := rc, tp_header := some ⟨s.off, more⟩ } ++
          g.drop SOMEIP_HEADER_LENGTH := by
      simp [listWrite, base_to_bytes_length]
    rw [h1]
    rw [getD_append_left _ _ _ _ (by rw [base_to_bytes_length]; decide)]
    rw [show (SomeipHeader.base_to_bytes
        { message_id := mid,
          length := SOMEIP_LEN_OFFSET_TO_PAYLOAD + TP_HEADER_LENGTH + s.len,
          request_id := rid, interface_version := iv, message_type := mt,
          return_code := rc, tp_header := some ⟨s.off, more⟩ }).getD (4 * 3 + 2) 0 =
      mt.toNat ||| SOMEIP_HEADER_MESSAGE_TYPE_TP_FLAG from rfl]
    rw [listWrite_append_inner _ _ _ _ (by rw [base_to_bytes_length]; simp; decide)]
    rw [base_to_bytes_tp_mask]
  · simp only [if_neg hz]

/-- One `consume_tp` step on a well-formed segment succeeds and preserves
the reassembly invariant. -/
theorem consume_step (mid rid iv rc : Nat) (mt : MessageType) (P : List Nat)
    (config : TpBufConfig) (consumed : List Seg) (buf : TpBuf) (s : Seg) (more : Bool)
    (hinv : TpInvCore mid rid iv rc mt P config consumed buf)
    (hend : buf.endVal = none)
    (hoff16 : s.off % 16 = 0)
    (hsP : s.off + s.len ≤ P.length)
    (hsmax : s.off + s.len ≤ config.tp_max_payload_len)
    (hmaxb : config.tp_max_payload_len ≤ TpBufConfig.MAX_TP_PAYLOAD_LEN)
    (halign : more = true → s.len % 16 = 0)
    (hpos : 0 < s.len) :
    (buf.consume_tp (mkTpSegment mid rid iv rc mt P s more)).1 = none ∧
    TpInvCore mid rid iv rc mt P config (consumed ++ [s])
      (buf.consume_tp (mkTpSegment mid rid iv rc mt P s more)).2 ∧
    (buf.consume_tp (mkTpSegment mid rid iv rc mt P s more)).2.endVal =
      (if more = true then none else some (s.off + s.len)) := by
  obtain ⟨hcfg, hnil, hlen, hhdr, hdat, hval, hpw, huni⟩ := hinv
  have hofflt : s.off < 2 ^ 32 := by
    unfold TpBufConfig.MAX_TP_PAYLOAD_LEN SOMEIP_HEADER_LENGTH at hmaxb
    omega
  obtain ⟨htp, hth, hpl, ht16⟩ := mkTpSegment_facts mid rid iv rc mt P s more hoff16 hofflt
  have hoff_eq : (mkTpSegment mid rid iv rc mt P s more).tp_header_unwrap.offset =
      s.off := by rw [hth]
  have hmore_eq :
      (mkTpSegment mid rid iv rc mt P s more).tp_header_unwrap.more_segment = more := by
    rw [hth]
  have hred : buf.consume_tp (mkTpSegment mid rid iv rc mt P s more) =
      buf.consume_tp_write (mkTpSegment mid rid iv rc mt P s more) := by
    simp only [TpBuf.consume_tp]
    rw [hoff_eq, hmore_eq, hpl, window_length P s.off s.len hsP, hcfg, hend]
    rw [if_neg (by omega)]
    rw [if_neg (fun hc => hc.2 (by rw [and_fifteen, halign hc.1]))]
  have hwmk := consume_tp_write_mk buf mid rid iv rc mt P s more hoff16 hofflt hsP
  rw [hred, hwmk]
  refine ⟨rfl, ?inv, ?ev⟩
  case ev =>
    cases more
    · rfl
    · exact hend
  set g := (if buf.data.length < SOMEIP_HEADER_LENGTH + s.off + s.len then
      buf.data ++ List.replicate (SOMEIP_HEADER_LENGTH + s.off + s.len - buf.data.length) 0
    else buf.data) with hg
  set bb := SomeipHeader.base_to_bytes
      { message_id := mid,
        length := SOMEIP_LEN_OFFSET_TO_PAYLOAD + TP_HEADER_LENGTH + s.len,
        request_id := rid, interface_version := iv, message_type := mt,
        return_code := rc, tp_header := none } with hbb
  set W := (P.drop s.off).take s.len with hW
  set d1 := (if s.off = 0 then bb ++ g.drop SOMEIP_HEADER_LENGTH else g) with hd1
  have hwlen : W.length = s.len := by rw [hW]; exact window_length P s.off s.len hsP
  have hbl : bb.length = SOMEIP_HEADER_LENGTH := by rw [hbb]; exact base_to_bytes_length _
  have hgl : g.length = max buf.data.length (SOMEIP_HEADER_LENGTH + s.off + s.len) := by
    rw [hg]; exact grow_length _ _
  have hd1l : d1.length = g.length := by
    rw [hd1]
    by_cases hz : s.off = 0
    · rw [if_pos hz, List.length_append, hbl, List.length_drop]
      omega
    · rw [if_neg hz]
  have hple : SOMEIP_HEADER_LENGTH + s.off ≤ d1.length := by rw [hd1l, hgl]; omega
  have hfit : SOMEIP_HEADER_LENGTH + s.off + W.length ≤ d1.length := by
    rw [hwlen, hd1l, hgl]; omega
  have hd1ge : ∀ i, SOMEIP_HEADER_LENGTH ≤ i → d1.getD i 0 = g.getD i 0 := by
    intro i hi
    rw [hd1]
    by_cases hz : s.off = 0
    · rw [if_pos hz, getD_append_right _ _ _ _ (by rw [hbl]; omega), hbl, getD_drop]
      congr 1
      omega
    · rw [if_neg hz]
  have hns : (⟨s.off, s.off + s.len⟩ : TpRange).start ≤
      (⟨s.off, s.off + s.len⟩ : TpRange).stop := by
    show s.off ≤ s.off + s.len
    omega
  obtain ⟨m1, m2, m3, m4, m5, m6⟩ :=
    mergeInto_spec buf.sections ⟨s.off, s.off + s.len⟩ hns hval hpw
  obtain ⟨hh1, hh2⟩ := mergeInto_hull buf.sections ⟨s.off, s.off + s.len⟩
  refine ⟨?_, ?_, ?_, ?_, ?_, ?_, ?_, ?_⟩
  · exact hcfg
  · intro habs
    exact absurd habs (by simp)
  · intro _
    show (listWrite d1 (SOMEIP_HEADER_LENGTH + s.off) W).length =
      SOMEIP_HEADER_LENGTH + maxEnd (consumed ++ [s])
    rw [listWrite_length _ _ _ hfit, hd1l, hgl, maxEnd_append]
    by_cases hcn : consumed = []
    · rw [hnil hcn, hcn]
      simp [maxEnd]
      omega
    · rw [hlen hcn]
      omega
  · rintro ⟨t, ht, htoff⟩
    by_cases hz : s.off = 0
    · refine ⟨SOMEIP_LEN_OFFSET_TO_PAYLOAD + TP_HEADER_LENGTH + s.len, ?_⟩
      show (listWrite d1 (SOMEIP_HEADER_LENGTH + s.off) W).take SOMEIP_HEADER_LENGTH = _
      rw [listWrite_take_of_le _ _ _ _ (by omega) hple, hd1, if_pos hz,
        List.take_left' hbl, hbb]
    · have htc : t ∈ consumed := by
        rcases List.mem_append.mp ht with h | h
        · exact h
        · have hts : t = s := by simpa using h
          subst hts
          exact absurd htoff hz
      have hcne : consumed ≠ [] := by
        intro h0
        rw [h0] at htc
        simp at htc
      obtain ⟨L, hL⟩ := hhdr ⟨t, htc, htoff⟩
      refine ⟨L, ?_⟩
      show (listWrite d1 (SOMEIP_HEADER_LENGTH + s.off) W).take SOMEIP_HEADER_LENGTH = _
      rw [listWrite_take_of_le _ _ _ _ (by omega) hple, hd1, if_neg hz, hg,
        grow_take _ _ _ (by rw [hlen hcne]; omega)]
      exact hL
  · intro t ht j hj
    show (listWrite d1 (SOMEIP_HEADER_LENGTH + s.off) W).getD
        (SOMEIP_HEADER_LENGTH + t.off + j) 0 = P.getD (t.off + j) 0
    rcases List.mem_append.mp ht with htc | hts
    · by_cases hin : s.off ≤ t.off + j ∧ t.off + j < s.off + s.len
      · rw [show SOMEIP_HEADER_LENGTH + t.off + j =
            SOMEIP_HEADER_LENGTH + s.off + (t.off + j - s.off) from by omega]
        rw [listWrite_getD_mid _ _ _ _ _ (by rw [hwlen]; omega) hple]
        rw [hW, window_getD P s.off s.len _ (by omega)]
        congr 1
        omega
      · have hd2 : (listWrite d1 (SOMEIP_HEADER_LENGTH + s.off) W).getD
            (SOMEIP_HEADER_LENGTH + t.off + j) 0 =
            d1.getD (SOMEIP_HEADER_LENGTH + t.off + j) 0 := by
          rcases (by omega : t.off + j < s.off ∨ s.off + s.len ≤ t.off + j) with h | h
          · exact listWrite_getD_lt _ _ _ _ _ (by omega) hple
          · exact listWrite_getD_ge _ _ _ _ _ (by rw [hwlen]; omega) hple
        have hcne : consumed ≠ [] := by
          intro h0
          rw [h0] at htc
          simp at htc
        have hbnd : SOMEIP_HEADER_LENGTH + t.off + j < buf.data.length := by
          have hle := le_maxEnd consumed t htc
          rw [hlen hcne]
          omega
        rw [hd2, hd1ge _ (by omega), hg, grow_getD _ _ _ _ hbnd]
        exact hdat t htc j hj
    · have hts' : t = s := by simpa using hts
      subst hts'
      rw [listWrite_getD_mid _ _ _ _ _ (by rw [hwlen]; exact hj) hple]
      rw [hW]
      exact window_getD P t.off t.len j hj
  · show ∀ r ∈ (mergeInto ⟨s.off, s.off + s.len⟩ buf.sections).2 ++
        [(mergeInto ⟨s.off, s.off + s.len⟩ buf.sections).1], r.start < r.stop
    intro r hr
    rcases List.mem_append.mp hr with h | h
    · exact hval r (m2 r h)
    · have he : r = (mergeInto ⟨s.off, s.off + s.len⟩ buf.sections).1 := by simpa using h
      rw [he]
      have hh1' : (mergeInto ⟨s.off, s.off + s.len⟩ buf.sections).1.start ≤ s.off := hh1
      have hh2' : s.off + s.len ≤
        (mergeInto ⟨s.off, s.off + s.len⟩ buf.sections).1.stop := hh2
      omega
  · show ((mergeInto ⟨s.off, s.off + s.len⟩ buf.sections).2 ++
        [(mergeInto ⟨s.off, s.off + s.len⟩ buf.sections).1]).Pairwise
        (fun a b => ¬rangesConnected a b)
    rw [List.pairwise_append]
    refine ⟨m3, by simp, ?_⟩
    intro a ha b hb
    have hbm : b = (mergeInto ⟨s.off, s.off + s.len⟩ buf.sections).1 := by simpa using hb
    rw [hbm]
    exact m4 a ha
  · intro p
    show (∃ r ∈ (mergeInto ⟨s.off, s.off + s.len⟩ buf.sections).2 ++
        [(mergeInto ⟨s.off, s.off + s.len⟩ buf.sections).1], r.start ≤ p ∧ p < r.stop) ↔ _
    have hm5 := m5 p
    constructor
    · rintro ⟨r, hr, hpr⟩
      rcases List.mem_append.mp hr with h | h
      · rcases hm5.mp (Or.inr ⟨r, h, hpr⟩) with h' | h'
        · exact ⟨s, List.mem_append_right _ (by simp), h'⟩
        · obtain ⟨r2, hr2, hp2⟩ := h'
          obtain ⟨t, htc, hpt⟩ := (huni p).mp ⟨r2, hr2, hp2⟩
          exact ⟨t, List.mem_append_left _ htc, hpt⟩
      · have he : r = (mergeInto ⟨s.off, s.off + s.len⟩ buf.sections).1 := by simpa using h
        rw [he] at hpr
        rcases hm5.mp (Or.inl hpr) with h' | h'
        · exact ⟨s, List.mem_append_right _ (by simp), h'⟩
        · obtain ⟨r2, hr2, hp2⟩ := h'
          obtain ⟨t, htc, hpt⟩ := (huni p).mp ⟨r2, hr2, hp2⟩
          exact ⟨t, List.mem_append_left _ htc, hpt⟩
    · rintro ⟨t, ht, hpt⟩
      rcases List.mem_append.mp ht with h | h
      · obtain ⟨r2, hr2, hp2⟩ := (huni p).mpr ⟨t, h, hpt⟩
        rcases hm5.mpr (Or.inr ⟨r2, hr2, hp2⟩) with h' | h'
        · exact ⟨_, List.mem_append_right _ (by simp), h'⟩
        · obtain ⟨r3, hr3, hp3⟩ := h'
          exact ⟨r3, List.mem_append_left _ hr3, hp3⟩
      · have hts : t = s := by simpa using h
        subst hts
        rcases hm5.mpr (Or.inl hpt) with h' | h'
        · exact ⟨_, List.mem_append_right _ (by simp), h'⟩
        · obtain ⟨r3, hr3, hp3⟩ := h'
          exact ⟨r3, List.mem_append_left _ hr3, hp3⟩

theorem consumeAll_append (l1 l2 : List SomeipMsgSlice) : ∀ buf : TpBuf,
    consumeAll buf (l1 ++ l2) =
      match consumeAll buf l1 with
      | (some e, b) => (some e, b)
      | (none, b) => consumeAll b l2 := by
  induction l1 with
  | nil => intro buf; simp [consumeAll]
  | cons m l1 ih =>
    intro buf
    simp only [List.cons_append, consumeAll]
    cases hc : buf.consume_tp m with
    | mk r b =>
      cases r with
      | some e => simp
      | none => exact ih b

/-- Feeding a list of well-formed non-final segments produces no error and
preserves the reassembly invariant. -/
theorem consumeAll_init (mid rid iv rc : Nat) (mt : MessageType) (P : List Nat)
    (config : TpBufConfig)
    (hmaxb : config.tp_max_payload_len ≤ TpBufConfig.MAX_TP_PAYLOAD_LEN) :
    ∀ (rest consumed : List Seg) (buf : TpBuf),
    TpInvCore mid rid iv rc mt P config consumed buf → buf.endVal = none →
    (∀ t ∈ rest, t.off % 16 = 0 ∧ t.off + t.len ≤ P.length ∧
      t.off + t.len ≤ config.tp_max_payload_len ∧ t.len % 16 = 0 ∧ 0 < t.len) →
    ∃ buf', consumeAll buf
        (rest.map fun t => mkTpSegment mid rid iv rc mt P t true) = (none, buf') ∧
      TpInvCore mid rid iv rc mt P config (consumed ++ rest) buf' ∧
      buf'.endVal = none := by
  intro rest
  induction rest with
  | nil =>
    intro consumed buf hinv hend _
    exact ⟨buf, by simp [consumeAll], by simpa using hinv, hend⟩
  | cons t rest ih =>
    intro consumed buf hinv hend hall
    obtain ⟨h1, h2, h3, h4, h5⟩ := hall t (List.mem_cons_self t rest)
    obtain ⟨hfst, hinv', hend'⟩ := consume_step mid rid iv rc mt P config consumed buf
      t true hinv hend h1 h2 h3 hmaxb (fun _ => h4) h5
    have hstep : buf.consume_tp (mkTpSegment mid rid iv rc mt P t true) =
        (none, (buf.consume_tp (mkTpSegment mid rid iv rc mt P t true)).2) := by
      rw [← hfst]
    have hend'' : (buf.consume_tp (mkTpSegment mid rid iv rc mt P t true)).2.endVal =
        none := by
      rw [hend']
      rfl
    obtain ⟨buf', hca, hinv'', hend3⟩ := ih (consumed ++ [t])
      (buf.consume_tp (mkTpSegment mid rid iv rc mt P t true)).2 hinv' hend''
      (fun u hu => hall u (List.mem_cons_of_mem t hu))
    refine ⟨buf', ?_, by simpa using hinv'', hend3⟩
    show consumeAll buf (List.map _ (t :: rest)) = (none, buf')
    rw [List.map_cons]
    simp only [consumeAll]
    rw [hstep]
    exact hca

/-- Claim C1: feeding a sequence of TP segments of one message whose
windows cover `[0, E)` exactly (no gaps, arbitrary order, byte-identical
overlaps allowed), where the final segment has `more_segments` unset and
end `E`, into a fresh `TpBuf` via `consume_tp` and finalizing yields a
non-TP view whose payload is the reassembled bytes `P[0..E)` (the
segments' payload bytes in offset order) and whose header is the
segments' header with the TP flag cleared and length `E + 8`. -/
theorem tp_reassembly_correct (mid rid iv rc : Nat) (mt : MessageType)
    (P : List Nat) (config : TpBufConfig) (segs : List Seg) (slast : Seg) (E : Nat)
    (hmid : mid < 2 ^ 32) (hrid : rid < 2 ^ 32)
    (hmaxb : config.tp_max_payload_len ≤ TpBufConfig.MAX_TP_PAYLOAD_LEN)
    (hsegs : ∀ t ∈ segs, t.off % 16 = 0 ∧ t.off + t.len ≤ P.length ∧
      t.off + t.len ≤ config.tp_max_payload_len ∧ t.len % 16 = 0 ∧ 0 < t.len)
    (hlast : slast.off % 16 = 0 ∧ slast.off + slast.len ≤ P.length ∧
      slast.off + slast.len ≤ config.tp_max_payload_len ∧ 0 < slast.len)
    (hE : slast.off + slast.len = E)
    (hcov : ∀ p, p < E ↔ ∃ t ∈ segs ++ [slast], t.off ≤ p ∧ p < t.off + t.len) :
    ∃ buf buf' v,
      consumeAll (TpBuf.new config)
        ((segs.map fun t => mkTpSegment mid rid iv rc mt P t true) ++
          [mkTpSegment mid rid iv rc mt P slast false]) = (none, buf) ∧
      buf.try_finalize = some (buf', v) ∧
      v.tp = false ∧
      v.payload = P.take E ∧
      v.to_header = some
        { message_id := mid, length := E + 8, request_id := rid,
          interface_version := iv, message_type := mt, return_code := rc,
          tp_header := none } := by
  have hEpos : 0 < E := by omega
  have hEP : E ≤ P.length := by omega
  have hbase : TpInvCore mid rid iv rc mt P config [] (TpBuf.new config) := by
    refine ⟨rfl, fun _ => rfl, ?_, ?_, ?_, ?_, List.Pairwise.nil, ?_⟩
    · intro h
      exact absurd rfl h
    · rintro ⟨t, ht, _⟩
      simp at ht
    · intro t ht
      simp at ht
    · intro r hr
      simp [TpBuf.new] at hr
    · intro p
      constructor
      · rintro ⟨r, hr, _⟩
        simp [TpBuf.new] at hr
      · rintro ⟨t, ht, _⟩
        simp at ht
  obtain ⟨buf1, hrun, hinv1, hend1⟩ := consumeAll_init mid rid iv rc mt P config hmaxb
    segs [] (TpBuf.new config) hbase rfl hsegs
  simp only [List.nil_append] at hinv1
  obtain ⟨hfst2, hinv2, hend2⟩ := consume_step mid rid iv rc mt P config segs buf1
    slast false hinv1 hend1 hlast.1 hlast.2.1 hlast.2.2.1 hmaxb
    (fun h => absurd h Bool.false_ne_true) hlast.2.2.2
  set buf2 := (buf1.consume_tp (mkTpSegment mid rid iv rc mt P slast false)).2 with hbuf2
  have hstep2 : buf1.consume_tp (mkTpSegment mid rid iv rc mt P slast false) =
      (none, buf2) := by
    rw [← hfst2]
  have hend2' : buf2.endVal = some E := by
    rw [hend2, if_neg Bool.false_ne_true, hE]
  have hrunall : consumeAll (TpBuf.new config)
      ((segs.map fun t => mkTpSegment mid rid iv rc mt P t true) ++
        [mkTpSegment mid rid iv rc mt P slast false]) = (none, buf2) := by
    rw [consumeAll_append, hrun]
    show consumeAll buf1 [mkTpSegment mid rid iv rc mt P slast false] = (none, buf2)
    simp only [consumeAll]
    rw [hstep2]
  obtain ⟨hcfg2, hnil2, hlen2, hhdr2, hdat2, hval2, hpw2, huni2⟩ := hinv2
  have hconsNE : segs ++ [slast] ≠ [] := by simp
  have hmaxE : maxEnd (segs ++ [slast]) = E := by
    rw [maxEnd_append, hE]
    have hle : maxEnd segs ≤ E := by
      apply maxEnd_le
      intro t ht
      obtain ⟨_, _, _, _, hp⟩ := hsegs t ht
      have hc := (hcov (t.off + t.len - 1)).mpr
        ⟨t, List.mem_append_left _ ht, by omega, by omega⟩
      omega
    omega
  have hdlen2 : buf2.data.length = SOMEIP_HEADER_LENGTH + E := by
    rw [hlen2 hconsNE, hmaxE]
  have hoff0 : ∃ t ∈ segs ++ [slast], t.off = 0 := by
    obtain ⟨t, ht, hpt⟩ := (hcov 0).mp hEpos
    exact ⟨t, ht, by omega⟩
  obtain ⟨L, hL⟩ := hhdr2 hoff0
  have hsec : buf2.sections = [⟨0, E⟩] := by
    apply sections_complete buf2.sections E hEpos hval2 hpw2
    intro p
    rw [huni2 p]
    exact (hcov p).symm
  have hcomp : buf2.is_complete = true := by
    simp [TpBuf.is_complete, hsec, hend2']
  have hwr : SomeipHeader.write_raw
      { message_id := mid, length := E + 8, request_id := rid,
        interface_version := iv, message_type := mt, return_code := rc,
        tp_header := none } =
      SomeipHeader.base_to_bytes
        { message_id := mid, length := E + 8, request_id := rid,
          interface_version := iv, message_type := mt, return_code := rc,
          tp_header := none } := by
    simp [SomeipHeader.write_raw]
  have hElt : E + 8 < 2 ^ 32 := by
    unfold TpBufConfig.MAX_TP_PAYLOAD_LEN SOMEIP_HEADER_LENGTH at hmaxb
    omega
  have hsplit : buf2.data = SomeipHeader.base_to_bytes
      { message_id := mid, length := L, request_id := rid,
        interface_version := iv, message_type := mt, return_code := rc,
        tp_header := none } ++ buf2.data.drop SOMEIP_HEADER_LENGTH := by
    rw [← hL]
    exact (List.take_append_drop _ _).symm
  have htail : buf2.data.drop SOMEIP_HEADER_LENGTH = P.take E := by
    apply list_eq_of_getD
    · rw [List.length_drop, hdlen2, List.length_take]
      omega
    · intro i hi
      have hiE : i < E := by
        rw [List.length_drop, hdlen2] at hi
        omega
      rw [getD_drop, getD_take_of_lt _ _ _ _ hiE]
      obtain ⟨t, ht, hpt⟩ := (hcov i).mp hiE
      have hb := hdat2 t ht (i - t.off) (by omega)
      rw [show SOMEIP_HEADER_LENGTH + t.off + (i - t.off) = SOMEIP_HEADER_LENGTH + i
        from by omega] at hb
      rw [show t.off + (i - t.off) = i from by omega] at hb
      exact hb
  have hdataeq : listWrite buf2.data 4 (u32_be_bytes (E + 8)) =
      SomeipHeader.base_to_bytes
        { message_id := mid, length := E + 8, request_id := rid,
          interface_version := iv, message_type := mt, return_code := rc,
          tp_header := none } ++ P.take E := by
    conv_lhs => rw [hsplit]
    rw [listWrite_append_inner _ _ _ _ (by
      show 4 + 4 ≤ 16
      decide)]
    rw [base_to_bytes_set_length, htail]
  obtain ⟨v, hok, hveqslice, hto, hpay⟩ := from_slice_write_raw
    { message_id := mid, length := E + 8, request_id := rid,
      interface_version := iv, message_type := mt, return_code := rc,
      tp_header := none } (P.take E) hmid hElt hrid
    (by intro tp htp; simp at htp)
    (by simp [SOMEIP_LEN_OFFSET_TO_PAYLOAD]; omega)
  have hokfin : SomeipMsgSlice.from_slice (listWrite buf2.data 4 (u32_be_bytes (E + 8))) =
      .ok v := by
    rw [hdataeq, ← hwr]
    exact hok
  have hvtp : v.tp = false := by
    obtain ⟨_, _, _, _, _, _, hveq⟩ := (from_slice_ok_iff _ v).mp hok
    rw [hveq]
    show ((SomeipHeader.write_raw
      { message_id := mid, length := E + 8, request_id := rid,
        interface_version := iv, message_type := mt, return_code := rc,
        tp_header := none } ++ P.take E).getD 14 0 &&& 0x20 != 0) = false
    rw [hwr]
    rw [show (SomeipHeader.base_to_bytes
      { message_id := mid, length := E + 8, request_id := rid,
        interface_version := iv, message_type := mt, return_code := rc,
        tp_header := none } ++ P.take E).getD 14 0 = mt.toNat from rfl]
    rw [(mt_byte_facts mt).2.2.2.1]
    rfl
  have hsecgetD : buf2.sections.getD 0 default = ⟨0, E⟩ := by
    rw [hsec]
    rfl
  have hfin : buf2.try_finalize =
      some ({ buf2 with data := listWrite buf2.data 4 (u32_be_bytes (E + 8)) }, v) := by
    simp only [TpBuf.try_finalize, hcomp, hsecgetD]
    rw [hokfin]
    simp
  exact ⟨buf2, { buf2 with data := listWrite buf2.data 4 (u32_be_bytes (E + 8)) }, v,
    hrunall, hfin, hvtp, hpay, hto⟩

theorem tp_reassembly_correct_witness :
    ∃ buf buf' v,
      consumeAll (TpBuf.new ⟨1024, 1400⟩)
        (([⟨0, 16⟩] : List Seg).map (fun t =>
            mkTpSegment 0x10203040 0x0A0B0C0D 3 0 .Notification (List.range 32) t true) ++
          [mkTpSegment 0x10203040 0x0A0B0C0D 3 0 .Notification (List.range 32)
            ⟨16, 16⟩ false]) = (none, buf) ∧
      buf.try_finalize = some (buf', v) ∧
      v.tp = false ∧
      v.payload = (List.range 32).take 32 ∧
      v.to_header = some
        { message_id := 0x10203040, length := 32 + 8, request_id := 0x0A0B0C0D,
          interface_version := 3, message_type := .Notification, return_code := 0,
          tp_header := none } :=
  tp_reassembly_correct 0x10203040 0x0A0B0C0D 3 0 .Notification (List.range 32)
    ⟨1024, 1400⟩ [⟨0, 16⟩] ⟨16, 16⟩ 32
    (by decide) (by decide) (by decide) (by decide) (by decide) (by decide)
    (by
      intro p
      constructor
      · intro hp
        by_cases h16 : p < 16
        · exact ⟨⟨0, 16⟩, by simp, Nat.zero_le p, h16⟩
        · exact ⟨⟨16, 16⟩, by simp, show 16 ≤ p by omega, hp⟩
      · rintro ⟨t, ht, h1, h2⟩
        simp only [List.mem_append, List.mem_singleton] at ht
        rcases ht with rfl | rfl
        · exact lt_of_lt_of_le (show p < 16 from h2) (by omega)
        · exact (show p < 32 from h2))

/-! ## SD codec helper lemmas -/

theorem be16_of_u16 (v : Nat) (h : v < 2 ^ 16) :
    be16 (v / 2 ^ 8 % 256) (v % 256) = v := by
  unfold be16
  omega

theorem be24_of_bytes (v : Nat) (h : v < 2 ^ 24) :
    be32 0 (v / 2 ^ 16 % 256) (v / 2 ^ 8 % 256) (v % 256) = v := by
  unfold be32
  omega

theorem list_len4 (l : List Nat) (h : l.length = 4) :
    ∃ a0 a1 a2 a3, l = [a0, a1, a2, a3] := by
  obtain ⟨a0, l, rfl⟩ := List.exists_of_length_succ l h
  simp only [List.length_cons] at h
  obtain ⟨a1, l, rfl⟩ := List.exists_of_length_succ l (show l.length = 3 by omega)
  simp only [List.length_cons] at h
  obtain ⟨a2, l, rfl⟩ := List.exists_of_length_succ l (show l.length = 2 by omega)
  simp only [List.length_cons] at h
  obtain ⟨a3, l, rfl⟩ := List.exists_of_length_succ l (show l.length = 1 by omega)
  simp only [List.length_cons] at h
  have hl : l = [] := List.eq_nil_of_length_eq_zero (by omega)
  exact ⟨a0, a1, a2, a3, by rw [hl]⟩

theorem list_len16 (l : List Nat) (h : l.length = 16) :
    ∃ a0 a1 a2 a3 a4 a5 a6 a7 a8 a9 a10 a11 a12 a13 a14 a15,
      l = [a0, a1, a2, a3, a4, a5, a6, a7, a8, a9, a10, a11, a12, a13, a14, a15] := by
  obtain ⟨a0, l, rfl⟩ := List.exists_of_length_succ l h
  simp only [List.length_cons] at h
  obtain ⟨a1, l, rfl⟩ := List.exists_of_length_succ l (show l.length = 15 by omega)
  simp only [List.length_cons] at h
  obtain ⟨a2, l, rfl⟩ := List.exists_of_length_succ l (show l.length = 14 by omega)
  simp only [List.length_cons] at h
  obtain ⟨a3, l, rfl⟩ := List.exists_of_length_succ l (show l.length = 13 by omega)
  simp only [List.length_cons] at h
  obtain ⟨a4, l, rfl⟩ := List.exists_of_length_succ l (show l.length = 12 by omega)
  simp only [List.length_cons] at h
  obtain ⟨a5, l, rfl⟩ := List.exists_of_length_succ l (show l.length = 11 by omega)
  simp only [List.length_cons] at h
  obtain ⟨a6, l, rfl⟩ := List.exists_of_length_succ l (show l.length = 10 by omega)
  simp only [List.length_cons] at h
  obtain ⟨a7, l, rfl⟩ := List.exists_of_length_succ l (show l.length = 9 by omega)
  simp only [List.length_cons] at h
  obtain ⟨a8, l, rfl⟩ := List.exists_of_length_succ l (show l.length = 8 by omega)
  simp only [List.length_cons] at h
  obtain ⟨a9, l, rfl⟩ := List.exists_of_length_succ l (show l.length = 7 by omega)
  simp only [List.length_cons] at h
  obtain ⟨a10, l, rfl⟩ := List.exists_of_length_succ l (show l.length = 6 by omega)
  simp only [List.length_cons] at h
  obtain ⟨a11, l, rfl⟩ := List.exists_of_length_succ l (show l.length = 5 by omega)
  simp only [List.length_cons] at h
  obtain ⟨a12, l, rfl⟩ := List.exists_of_length_succ l (show l.length = 4 by omega)
  simp only [List.length_cons] at h
  obtain ⟨a13, l, rfl⟩ := List.exists_of_length_succ l (show l.length = 3 by omega)
  simp only [List.length_cons] at h
  obtain ⟨a14, l, rfl⟩ := List.exists_of_length_succ l (show l.length = 2 by omega)
  simp only [List.length_cons] at h
  obtain ⟨a15, l, rfl⟩ := List.exists_of_length_succ l (show l.length = 1 by omega)
  simp only [List.length_cons] at h
  have hl : l = [] := List.eq_nil_of_length_eq_zero (by omega)
  exact ⟨a0, a1, a2, a3, a4, a5, a6, a7, a8, a9, a10, a11, a12, a13, a14, a15,
    by rw [hl]⟩

/-- Packing and unpacking the two 4-bit option counts of entry byte 3. -/
theorem opt_nibbles : ∀ n1 < 16, ∀ n2 < 16,
    ((n1 <<< 4) % 256 ||| (n2 &&& 0x0F)) >>> 4 = n1 ∧
    ((n1 <<< 4) % 256 ||| (n2 &&& 0x0F)) &&& 0x0F = n2 := by decide

/-- Packing and unpacking eventgroup entry byte 13 (initial-data flag and
4-bit counter). -/
theorem eventgroup_b13 : ∀ c < 16, ∀ idr : Bool,
    (((if idr then EVENT_ENTRY_INITIAL_DATA_REQUESTED_FLAG else 0) ||| (c &&& 0x0F)) &&&
      EVENT_ENTRY_INITIAL_DATA_REQUESTED_FLAG != 0) = idr ∧
    ((if idr then EVENT_ENTRY_INITIAL_DATA_REQUESTED_FLAG else 0) ||| (c &&& 0x0F)) &&&
      0x0F = c := by decide

/-- Decoding the packed SD flags byte. -/
theorem flags_decode : ∀ r u e : Bool,
    (((if r then REBOOT_FLAG else 0) ||| (if u then UNICAST_FLAG else 0) |||
        (if e then EXPLICIT_INITIAL_DATA_CONTROL_FLAG else 0)) &&& REBOOT_FLAG != 0) = r ∧
    (((if r then REBOOT_FLAG else 0) ||| (if u then UNICAST_FLAG else 0) |||
        (if e then EXPLICIT_INITIAL_DATA_CONTROL_FLAG else 0)) &&& UNICAST_FLAG != 0) = u ∧
    (((if r then REBOOT_FLAG else 0) ||| (if u then UNICAST_FLAG else 0) |||
        (if e then EXPLICIT_INITIAL_DATA_CONTROL_FLAG else 0)) &&&
      EXPLICIT_INITIAL_DATA_CONTROL_FLAG != 0) = e := by decide

theorem tp_of_raw_toNat (tp : TransportProtocol) (hwf : tp.wf) :
    transport_protocol_of_raw tp.toNat = tp := by
  cases tp with
  | Tcp => rfl
  | Udp => rfl
  | Generic v =>
    obtain ⟨_, h6, h11⟩ := hwf
    unfold transport_protocol_of_raw TransportProtocol.toNat
    rw [if_neg h6, if_neg h11]

/-- Reading back the bytes written for one SD entry recovers it. -/
theorem sd_entry_roundtrip (e : SdEntry) (rest : List Nat) (hwf : e.wf) :
    SdEntry.read (e.to_bytes ++ rest) = .ok (e, rest) := by
  cases e with
  | Service _type i1 i2 n1 n2 sid iid maj ttl minor =>
    obtain ⟨h1, h2, h3, h4, h5, h6, h7, h8, h9⟩ := hwf
    cases _type <;>
    · simp only [SdEntry.to_bytes, SdServiceEntryType.toNat, u16_be_bytes, u32_be_bytes,
        List.cons_append, List.nil_append, SdEntry.read]
      rw [(opt_nibbles n1 h3 n2 h4).1, (opt_nibbles n1 h3 n2 h4).2,
        be16_of_u16 sid h5, be16_of_u16 iid h6, be24_of_bytes ttl h8,
        be32_of_be_bytes minor h9]
  | Eventgroup _type i1 i2 n1 n2 sid iid maj ttl idr counter egid =>
    obtain ⟨h1, h2, h3, h4, h5, h6, h7, h8, h9, h10⟩ := hwf
    cases _type <;>
    · simp only [SdEntry.to_bytes, SdEventGroupEntryType.toNat, u16_be_bytes,
        List.cons_append, List.nil_append, SdEntry.read]
      rw [(opt_nibbles n1 h3 n2 h4).1, (opt_nibbles n1 h3 n2 h4).2,
        be16_of_u16 sid h5, be16_of_u16 iid h6, be24_of_bytes ttl h8,
        (eventgroup_b13 counter h9 idr).1, (eventgroup_b13 counter h9 idr).2,
        be16_of_u16 egid h10]

theorem disc_decode : ∀ d : Bool,
    ((if d then DISCARDABLE_FLAG else 0) &&& DISCARDABLE_FLAG != 0) = d := by decide

/-- Reading back the bytes appended for one SD option (other than the
write-forbidden `UnknownDiscardable` placeholder) recovers it. -/
theorem sd_option_roundtrip (o : SdOption) (buffer : List Nat)
    (hwf : o.wf) (hnu : o.isUnknownDiscardable = false)
    (hhl : o.header_len < 2 ^ 16) :
    ∃ enc, o.append_bytes_to_vec buffer = .ok (buffer ++ enc) ∧
      enc.length = o.header_len ∧
      ∀ rest, SdOption.read (enc ++ rest) = .ok ((o.header_len, o), rest) := by
  cases o with
  | Configuration o =>
    obtain ⟨disc, str⟩ := o
    simp only [SdOption.wf] at hwf
    simp only [SdOption.header_len] at hhl ⊢
    refine ⟨u16_be_bytes (1 + str.length) ++
      [CONFIGURATION_TYPE, if disc then DISCARDABLE_FLAG else 0] ++ str, ?_, ?_, ?_⟩
    · simp [SdOption.append_bytes_to_vec, List.append_assoc]
    · simp [u16_be_bytes]
      omega
    · intro rest
      simp only [u16_be_bytes, List.cons_append, List.nil_append, List.append_assoc,
        SdOption.read]
      rw [be16_of_u16 (1 + str.length) hwf]
      rw [if_neg (by omega), if_pos trivial, Nat.mod_eq_of_lt hhl]
      rw [show 1 + str.length - 1 = str.length from by omega]
      rw [List.take_left, List.drop_left, disc_decode disc]
  | LoadBalancing o =>
    obtain ⟨disc, prio, weight⟩ := o
    obtain ⟨hp, hw⟩ := hwf
    refine ⟨[0, 5, LOAD_BALANCING_TYPE, if disc then DISCARDABLE_FLAG else 0,
      prio / 2 ^ 8 % 256, prio % 256, weight / 2 ^ 8 % 256, weight % 256], ?_, ?_, ?_⟩
    · simp [SdOption.append_bytes_to_vec, u16_be_bytes, LOAD_BALANCING_LEN,
        List.append_assoc]
    · rfl
    · intro rest
      have hread : SdOption.read (([0, 5, LOAD_BALANCING_TYPE,
          if disc then DISCARDABLE_FLAG else 0, prio / 2 ^ 8 % 256, prio % 256,
          weight / 2 ^ 8 % 256, weight % 256] : List Nat) ++ rest) =
          .ok (((SdOption.LoadBalancing
              { discardable := disc, priority := prio, weight := weight }).header_len,
            .LoadBalancing
              { discardable := (if disc then DISCARDABLE_FLAG else 0) &&&
                  DISCARDABLE_FLAG != 0,
                priority := be16 (prio / 2 ^ 8 % 256) (prio % 256),
                weight := be16 (weight / 2 ^ 8 % 256) (weight % 256) }), rest) := rfl
      rw [hread, disc_decode disc, be16_of_u16 prio hp, be16_of_u16 weight hw]
  | Ipv4Endpoint o =>
    obtain ⟨addr, tp, port⟩ := o
    obtain ⟨hlen, htp, hport⟩ := hwf
    obtain ⟨a0, a1, a2, a3, rfl⟩ := list_len4 addr hlen
    refine ⟨[0, IPV4_ENDPOINT_LEN, IPV4_ENDPOINT_TYPE, 0, a0, a1, a2, a3, 0,
      tp.toNat, port / 2 ^ 8 % 256, port % 256], ?_, rfl, ?_⟩
    · simp [SdOption.append_bytes_to_vec, u16_be_bytes, IPV4_ENDPOINT_LEN,
        List.append_assoc]
    · intro rest
      have hread : SdOption.read (([0, IPV4_ENDPOINT_LEN, IPV4_ENDPOINT_TYPE, 0, a0, a1,
          a2, a3, 0, tp.toNat, port / 2 ^ 8 % 256, port % 256] : List Nat) ++ rest) =
          .ok (((SdOption.Ipv4Endpoint
              { ipv4_address := [a0, a1, a2, a3], transport_protocol := tp,
                transport_protocol_number := port }).header_len,
            .Ipv4Endpoint
              { ipv4_address := [a0, a1, a2, a3],
                transport_protocol := transport_protocol_of_raw tp.toNat,
                transport_protocol_number :=
                  be16 (port / 2 ^ 8 % 256) (port % 256) }), rest) := rfl
      rw [hread, tp_of_raw_toNat tp htp, be16_of_u16 port hport]
  | Ipv6Endpoint o =>
    obtain ⟨addr, tp, port⟩ := o
    obtain ⟨hlen, htp, hport⟩ := hwf
    obtain ⟨a0, a1, a2, a3, a4, a5, a6, a7, a8, a9, a10, a11, a12, a13, a14, a15, rfl⟩ :=
      list_len16 addr hlen
    refine ⟨[0, IPV6_ENDPOINT_LEN, IPV6_ENDPOINT_TYPE, 0, a0, a1, a2, a3, a4, a5, a6,
      a7, a8, a9, a10, a11, a12, a13, a14, a15, 0, tp.toNat,
      port / 2 ^ 8 % 256, port % 256], ?_, rfl, ?_⟩
    · simp [SdOption.append_bytes_to_vec, u16_be_bytes, IPV6_ENDPOINT_LEN,
        List.append_assoc]
    · intro rest
      have hread : SdOption.read (([0, IPV6_ENDPOINT_LEN, IPV6_ENDPOINT_TYPE, 0, a0, a1,
          a2, a3, a4, a5, a6, a7, a8, a9, a10, a11, a12, a13, a14, a15, 0, tp.toNat,
          port / 2 ^ 8 % 256, port % 256] : List Nat) ++ rest) =
          .ok (((SdOption.Ipv6Endpoint
              { ipv6_address := [a0, a1, a2, a3, a4, a5, a6, a7, a8, a9, a10, a11, a12,
                  a13, a14, a15],
                transport_protocol := tp,
                transport_protocol_number := port }).header_len,
            .Ipv6Endpoint
              { ipv6_address := [a0, a1, a2, a3, a4, a5, a6, a7, a8, a9, a10, a11, a12,
                  a13, a14, a15],
                transport_protocol := transport_protocol_of_raw tp.toNat,
                transport_protocol_number :=
                  be16 (port / 2 ^ 8 % 256) (port % 256) }), rest) := rfl
      rw [hread, tp_of_raw_toNat tp htp, be16_of_u16 port hport]
  | Ipv4Multicast o =>
    obtain ⟨addr, tp, port⟩ := o
    obtain ⟨hlen, htp, hport⟩ := hwf
    obtain ⟨a0, a1, a2, a3, rfl⟩ := list_len4 addr hlen
    refine ⟨[0, IPV4_MULTICAST_LEN, IPV4_MULTICAST_TYPE, 0, a0, a1, a2, a3, 0,
      tp.toNat, port / 2 ^ 8 % 256, port % 256], ?_, rfl, ?_⟩
    · simp [SdOption.append_bytes_to_vec, u16_be_bytes, IPV4_MULTICAST_LEN,
        List.append_assoc]
    · intro rest
      have hread : SdOption.read (([0, IPV4_MULTICAST_LEN, IPV4_MULTICAST_TYPE, 0, a0,
          a1, a2, a3, 0, tp.toNat, port / 2 ^ 8 % 256, port % 256] : List Nat) ++ rest) =
          .ok (((SdOption.Ipv4Multicast
              { ipv4_address := [a0, a1, a2, a3], transport_protocol := tp,
                transport_protocol_number := port }).header_len,
            .Ipv4Multicast
              { ipv4_address := [a0, a1, a2, a3],
                transport_protocol := transport_protocol_of_raw tp.toNat,
                transport_protocol_number :=
                  be16 (port / 2 ^ 8 % 256) (port % 256) }), rest) := rfl
      rw [hread, tp_of_raw_toNat tp htp, be16_of_u16 port hport]
  | Ipv6Multicast o =>
    obtain ⟨addr, tp, port⟩ := o
    obtain ⟨hlen, htp, hport⟩ := hwf
    obtain ⟨a0, a1, a2, a3, a4, a5, a6, a7, a8, a9, a10, a11, a12, a13, a14, a15, rfl⟩ :=
      list_len16 addr hlen
    refine ⟨[0, IPV6_MULTICAST_LEN, IPV6_MULTICAST_TYPE, 0, a0, a1, a2, a3, a4, a5, a6,
      a7, a8, a9, a10, a11, a12, a13, a14, a15, 0, tp.toNat,
      port / 2 ^ 8 % 256, port % 256], ?_, rfl, ?_⟩
    · simp [SdOption.append_bytes_to_vec, u16_be_bytes, IPV6_MULTICAST_LEN,
        List.append_assoc]
    · intro rest
      have hread : SdOption.read (([0, IPV6_MULTICAST_LEN, IPV6_MULTICAST_TYPE, 0, a0,
          a1, a2, a3, a4, a5, a6, a7, a8, a9, a10, a11, a12, a13, a14, a15, 0, tp.toNat,
          port / 2 ^ 8 % 256, port % 256] : List Nat) ++ rest) =
          .ok (((SdOption.Ipv6Multicast
              { ipv6_address := [a0, a1, a2, a3, a4, a5, a6, a7, a8, a9, a10, a11, a12,
                  a13, a14, a15],
                transport_protocol := tp,
                transport_protocol_number := port }).header_len,
            .Ipv6Multicast
              { ipv6_address := [a0, a1, a2, a3, a4, a5, a6, a7, a8, a9, a10, a11, a12,
                  a13, a14, a15],
                transport_protocol := transport_protocol_of_raw tp.toNat,
                transport_protocol_number :=
                  be16 (port / 2 ^ 8 % 256) (port % 256) }), rest) := rfl
      rw [hread, tp_of_raw_toNat tp htp, be16_of_u16 port hport]
  | Ipv4SdEndpoint o =>
    obtain ⟨addr, tp, port⟩ := o
    obtain ⟨hlen, htp, hport⟩ := hwf
    obtain ⟨a0, a1, a2, a3, rfl⟩ := list_len4 addr hlen
    refine ⟨[0, IPV4_SD_ENDPOINT_LEN, IPV4_SD_ENDPOINT_TYPE, 0, a0, a1, a2, a3, 0,
      tp.toNat, port / 2 ^ 8 % 256, port % 256], ?_, rfl, ?_⟩
    · simp [SdOption.append_bytes_to_vec, u16_be_bytes, IPV4_SD_ENDPOINT_LEN,
        List.append_assoc]
    · intro rest
      have hread : SdOption.read (([0, IPV4_SD_ENDPOINT_LEN, IPV4_SD_ENDPOINT_TYPE, 0,
          a0, a1, a2, a3, 0, tp.toNat, port / 2 ^ 8 % 256, port % 256] : List Nat) ++
            rest) =
          .ok (((SdOption.Ipv4SdEndpoint
              { ipv4_address := [a0, a1, a2, a3], transport_protocol := tp,
                transport_protocol_number := port }).header_len,
            .Ipv4SdEndpoint
              { ipv4_address := [a0, a1, a2, a3],
                transport_protocol := transport_protocol_of_raw tp.toNat,
                transport_protocol_number :=
                  be16 (port / 2 ^ 8 % 256) (port % 256) }), rest) := rfl
      rw [hread, tp_of_raw_toNat tp htp, be16_of_u16 port hport]
  | Ipv6SdEndpoint o =>
    obtain ⟨addr, tp, port⟩ := o
    obtain ⟨hlen, htp, hport⟩ := hwf
    obtain ⟨a0, a1, a2, a3, a4, a5, a6, a7, a8, a9, a10, a11, a12, a13, a14, a15, rfl⟩ :=
      list_len16 addr hlen
    refine ⟨[0, IPV6_SD_ENDPOINT_LEN, IPV6_SD_ENDPOINT_TYPE, 0, a0, a1, a2, a3, a4, a5,
      a6, a7, a8, a9, a10, a11, a12, a13, a14, a15, 0, tp.toNat,
      port / 2 ^ 8 % 256, port % 256], ?_, rfl, ?_⟩
    · simp [SdOption.append_bytes_to_vec, u16_be_bytes, IPV6_SD_ENDPOINT_LEN,
        List.append_assoc]
    · intro rest
      have hread : SdOption.read (([0, IPV6_SD_ENDPOINT_LEN, IPV6_SD_ENDPOINT_TYPE, 0,
          a0, a1, a2, a3, a4, a5, a6, a7, a8, a9, a10, a11, a12, a13, a14, a15, 0,
          tp.toNat, port / 2 ^ 8 % 256, port % 256] : List Nat) ++ rest) =
          .ok (((SdOption.Ipv6SdEndpoint
              { ipv6_address := [a0, a1, a2, a3, a4, a5, a6, a7, a8, a9, a10, a11, a12,
                  a13, a14, a15],
                transport_protocol := tp,
                transport_protocol_number := port }).header_len,
            .Ipv6SdEndpoint
              { ipv6_address := [a0, a1, a2, a3, a4, a5, a6, a7, a8, a9, a10, a11, a12,
                  a13, a14, a15],
                transport_protocol := transport_protocol_of_raw tp.toNat,
                transport_protocol_number :=
                  be16 (port / 2 ^ 8 % 256) (port % 256) }), rest) := rfl
      rw [hread, tp_of_raw_toNat tp htp, be16_of_u16 port hport]
  | UnknownDiscardable o => simp [SdOption.isUnknownDiscardable] at hnu

theorem header_len_pos (o : SdOption) : 1 ≤ o.header_len := by
  cases o <;> (simp only [SdOption.header_len]; omega)

theorem optionsLen_ge_count (opts : List SdOption) : opts.length ≤ optionsLen opts := by
  induction opts with
  | nil => simp [optionsLen]
  | cons o opts ih =>
    have h := header_len_pos o
    simp only [optionsLen, List.length_cons]
    omega

/-- Appending any option other than the `UnknownDiscardable` placeholder
never fails. -/
theorem append_bytes_ok (o : SdOption) (buffer : List Nat)
    (hnu : o.isUnknownDiscardable = false) :
    ∃ buffer2, o.append_bytes_to_vec buffer = .ok buffer2 := by
  cases o <;> first
    | exact ⟨_, rfl⟩
    | simp [SdOption.isUnknownDiscardable] at hnu

/-- Writing and reading back a list of real SD options round-trips. -/
theorem sd_options_roundtrip (opts : List SdOption) :
    (∀ o ∈ opts, o.wf) → (∀ o ∈ opts, o.isUnknownDiscardable = false) →
    optionsLen opts < 2 ^ 16 →
    ∀ buffer, ∃ enc, appendOptions opts buffer = .ok (buffer ++ enc) ∧
      enc.length = optionsLen opts ∧
      ∀ rest fuel, opts.length < fuel →
        readOptions fuel (optionsLen opts) (enc ++ rest) = .ok (opts, rest) := by
  induction opts with
  | nil =>
    intro _ _ _ buffer
    refine ⟨[], by simp [appendOptions], rfl, ?_⟩
    intro rest fuel hfuel
    cases fuel with
    | zero => exact absurd hfuel (by omega)
    | succ fuel => simp [readOptions, optionsLen]
  | cons o opts ih =>
    intro hwf hnu hbound buffer
    have ho := hwf o (List.mem_cons_self o opts)
    have hno := hnu o (List.mem_cons_self o opts)
    have hlenc : optionsLen (o :: opts) = o.header_len + optionsLen opts := rfl
    have hhl : o.header_len < 2 ^ 16 := by omega
    obtain ⟨enc1, ha1, hl1, hr1⟩ := sd_option_roundtrip o buffer ho hno hhl
    obtain ⟨enc2, ha2, hl2, hr2⟩ := ih (fun u hu => hwf u (List.mem_cons_of_mem o hu))
      (fun u hu => hnu u (List.mem_cons_of_mem o hu)) (by omega) (buffer ++ enc1)
    refine ⟨enc1 ++ enc2, ?_, ?_, ?_⟩
    · show appendOptions (o :: opts) buffer = _
      simp only [appendOptions, ha1, ha2, List.append_assoc]
    · simp only [List.length_append, hl1, hl2]
      rw [hlenc]
    · intro rest fuel hfuel
      cases fuel with
      | zero => exact absurd hfuel (by omega)
      | succ fuel =>
        have hpos := header_len_pos o
        have harith : (optionsLen (o :: opts) + (2 ^ 32 - o.header_len % 2 ^ 32)) %
            2 ^ 32 = optionsLen opts := by
          rw [hlenc]
          have h16 : (2 : Nat) ^ 16 < 2 ^ 32 := by norm_num
          omega
        have hfuel' : opts.length < fuel := by
          simp only [List.length_cons] at hfuel
          omega
        simp only [readOptions, List.append_assoc, if_neg (show ¬optionsLen (o :: opts) =
          0 from by omega), hr1 (enc2 ++ rest), harith, hr2 rest fuel hfuel']

/-- When the options contain an `UnknownDiscardable` placeholder (after a
prefix of real options), writing fails with the placeholder's type. -/
theorem appendOptions_unknown_error (pre : List SdOption) :
    ∀ (hnu : ∀ o ∈ pre, o.isUnknownDiscardable = false)
      (u : UnknownDiscardableOption) (post : List SdOption) (buffer : List Nat),
    appendOptions (pre ++ SdOption.UnknownDiscardable u :: post) buffer =
      .error (.SdUnknownDiscardableOption u.option_type) := by
  induction pre with
  | nil =>
    intro _ u post buffer
    simp [appendOptions, SdOption.append_bytes_to_vec]
  | cons o pre ih =>
    intro hnu u post buffer
    obtain ⟨b2, hb2⟩ := append_bytes_ok o buffer (hnu o (List.mem_cons_self o pre))
    simp only [List.cons_append, appendOptions, hb2]
    exact ih (fun x hx => hnu x (List.mem_cons_of_mem o hx)) u post b2

/-- Reading back the bytes written for a list of entries recovers it. -/
theorem sd_entries_roundtrip (entries : List SdEntry)
    (hwf : ∀ e ∈ entries, e.wf) (tail : List Nat) :
    readEntries entries.length (entriesToBytes entries ++ tail) = .ok (entries, tail) := by
  induction entries with
  | nil => simp [readEntries, entriesToBytes]
  | cons e entries ih =>
    have h1 := sd_entry_roundtrip e (entriesToBytes entries ++ tail)
      (hwf e (List.mem_cons_self e entries))
    have h2 := ih (fun x hx => hwf x (List.mem_cons_of_mem e hx))
    simp only [entriesToBytes, List.length_cons, List.append_assoc, readEntries, h1, h2]

/-- Claim C3: an SD PDU whose entries and options arrays fit within the
UDP payload bound and which contains no `UnknownDiscardable` placeholder
writes successfully and reading the produced bytes returns an equal
structure; a PDU holding an `UnknownDiscardable` placeholder (after any
prefix of real options) fails to write with `SdUnknownDiscardableOption`
carrying the placeholder's option type. -/
theorem sd_roundtrip_and_unknown_write_error (h : SdHeader) (rest : List Nat) :
    (h.wf → (∀ o ∈ h.options, o.isUnknownDiscardable = false) →
      ∃ bytes, h.to_bytes_vec = .ok bytes ∧
        SdHeader.read (bytes ++ rest) = .ok (h, rest)) ∧
    (∀ pre u post, h.options = pre ++ SdOption.UnknownDiscardable u :: post →
      (∀ o ∈ pre, o.isUnknownDiscardable = false) →
      h.to_bytes_vec = .error (.SdUnknownDiscardableOption u.option_type)) := by
  obtain ⟨flags, entries, options⟩ := h
  constructor
  · rintro ⟨hewf, howf, hebound, hobound⟩ hnu
    have hewf' : ∀ e ∈ entries, e.wf := hewf
    have howf' : ∀ o ∈ options, o.wf := howf
    have hnu' : ∀ o ∈ options, o.isUnknownDiscardable = false := hnu
    have hebound' : entries.length * ENTRY_LEN ≤ MAX_ENTRIES_LEN := hebound
    have hobound' : optionsLen options ≤ MAX_OPTIONS_LEN := hobound
    have hob16 : optionsLen options < 2 ^ 16 := by
      unfold MAX_OPTIONS_LEN SOMEIP_MAX_PAYLOAD_LEN_UDP at hobound'
      omega
    have heb32 : entries.length * ENTRY_LEN < 2 ^ 32 := by
      unfold MAX_ENTRIES_LEN SOMEIP_MAX_PAYLOAD_LEN_UDP at hebound'
      omega
    have hob32 : optionsLen options < 2 ^ 32 := by
      have h16 : (2 : Nat) ^ 16 < 2 ^ 32 := by norm_num
      omega
    obtain ⟨enc, ha, hl, hr⟩ := sd_options_roundtrip options howf' hnu' hob16
      (flags.to_bytes ++ u32_be_bytes (entries.length * ENTRY_LEN) ++
        entriesToBytes entries ++ u32_be_bytes (optionsLen options))
    refine ⟨flags.to_bytes ++ u32_be_bytes (entries.length * ENTRY_LEN) ++
      entriesToBytes entries ++ u32_be_bytes (optionsLen options) ++ enc, ?_, ?_⟩
    · show SdHeader.to_bytes_vec _ = .ok _
      simp only [SdHeader.to_bytes_vec]
      exact ha
    · obtain ⟨r, u, e⟩ := flags
      have hdiv : entries.length * ENTRY_LEN / ENTRY_LEN = entries.length := by
        unfold ENTRY_LEN
        omega
      have hentries := sd_entries_roundtrip entries hewf'
        ((optionsLen options / 2 ^ 24 % 256) :: (optionsLen options / 2 ^ 16 % 256) ::
          (optionsLen options / 2 ^ 8 % 256) :: (optionsLen options % 256) ::
          (enc ++ rest))
      have hfuel : options.length < (enc ++ rest).length + 1 := by
        have h1 := optionsLen_ge_count options
        rw [List.length_append, hl]
        omega
      have hropts := hr rest ((enc ++ rest).length + 1) hfuel
      have hne1 : ¬ entries.length * ENTRY_LEN > MAX_ENTRIES_LEN := by omega
      have hne2 : ¬ optionsLen options > MAX_OPTIONS_LEN := by omega
      simp only [List.append_assoc, SdHeaderFlags.to_bytes, u32_be_bytes,
        List.cons_append, List.nil_append, SdHeader.read]
      rw [be32_of_be_bytes _ heb32]
      rw [if_neg hne1]
      rw [hdiv]
      simp only [hentries]
      rw [be32_of_be_bytes _ hob32]
      rw [if_neg hne2]
      simp only [hropts]
      rw [(flags_decode r u e).1, (flags_decode r u e).2.1, (flags_decode r u e).2.2]
  · intro pre u post hopt hnu
    have hopt' : options = pre ++ SdOption.UnknownDiscardable u :: post := hopt
    show SdHeader.to_bytes_vec _ = _
    simp only [SdHeader.to_bytes_vec]
    rw [hopt']
    exact appendOptions_unknown_error pre hnu u post _

end SomeipParse
